import Mathlib

/-!
# AudioRemote ESP32 (WiFi edition): button, command, connection, battery and idle logic

A shallow embedding of `src/main.cpp`.

* `unsigned long` is 32 bits wide on the ESP32; timestamps are natural numbers
  and every subtraction of two timestamps is `sub32`, the difference modulo `2^32`.
* `uint16_t commandSeq` is a natural number incremented modulo `2^16`.
* `digitalRead`, `millis`, `analogRead`, the JSON serializer and the WebSocket
  transport are inputs of the functions that consult them; so is what
  `deserializeJson` makes of the payload of an inbound text message.
* A call that does not return (a read through a null pointer) has result `none`.
* `handleButton` works on the state that belongs to one channel
  (`buttons[index]` and `lastCommandTime[index]`) and returns, in order, the
  `sendCommand` calls it makes; each such call is followed in the source by
  `lastCommandTime[index] = now; lastActivityTime = now;`.
-/

namespace AudioRemote

/-! ## Constants -/

def BTN_NOTE : Nat := 27

def DEBOUNCE_MS : Nat := 50
def LONG_PRESS_MS : Nat := 1500
def CONTINUOUS_INTERVAL : Nat := 200
def COMMAND_MIN_INTERVAL : Nat := 100
def IDLE_TIMEOUT_MS : Nat := 300000
def LED_BLINK_MS : Nat := 100
def LED_ERROR_BLINK_MS : Nat := 80
def JSON_BUFFER_SIZE : Nat := 256

/-- Arduino `HIGH` (0x1) stored in a `bool` field. -/
def HIGH : Bool := true

/-- Difference of two `unsigned long` values: `a - b` modulo `2^32`. -/
def sub32 (a b : Nat) : Nat := (a % 4294967296 + 4294967296 - b % 4294967296) % 4294967296

/-! ## Button state -/

/-- The `ButtonState` struct. `shortCmd` and `longCmd` are `const char*`; a null
pointer is `none`. -/
structure ButtonState where
  pin : Nat
  lastReading : Bool
  currentState : Bool
  lastDebounceTime : Nat
  pressStartTime : Nat
  longPressFired : Bool
  isPressed : Bool
  shortCmd : Option String
  longCmd : Option String
deriving DecidableEq

/-- One row of the `buttons` table as written in the initialiser list. -/
def initButton (pin : Nat) (shortCmd longCmd : Option String) : ButtonState :=
  { pin := pin, lastReading := HIGH, currentState := HIGH, lastDebounceTime := 0,
    pressStartTime := 0, longPressFired := false, isPressed := false,
    shortCmd := shortCmd, longCmd := longCmd }

/-- The `buttons` table. -/
def buttons : List ButtonState :=
  [ initButton 0 (some "play_pause") none,
    initButton 2 (some "next") none,
    initButton 4 (some "prev") none,
    initButton 12 (some "volume_up") (some "volume_up"),
    initButton 13 (some "volume_down") (some "volume_down"),
    initButton 14 (some "speed_cycle") none,
    initButton 15 (some "repeat_cycle") none,
    initButton 27 (some "note") none ]

/-- The two places in `handleButton` that call `sendCommand`. -/
inductive Site where
  | shortPress
  | continuous
deriving DecidableEq

/-- One call `sendCommand(cmd, extraJson)` made by `handleButton`. -/
structure Call where
  site : Site
  cmd : Option String
  extraJson : Option String
deriving DecidableEq

/-- The state owned by one channel: `buttons[index]` and `lastCommandTime[index]`. -/
structure Chan where
  btn : ButtonState
  lastCommandTime : Nat
deriving DecidableEq

/-- What one call of `handleButton` reads from the outside: the raw level
(`digitalRead(pin) == LOW`), `millis()` at entry, and the later `millis()` that
the note button prints into its `ts` field. -/
structure Tick where
  reading : Bool
  now : Nat
  noteTs : Nat
deriving DecidableEq

/-- The text `snprintf(timestamp, 32, "\"ts\":%lu", millis())` produces. -/
def noteExtra (ts : Nat) : String := "\"ts\":" ++ toString ts

/-- Lines 397-404: the short-press call; the note button adds its timestamp. -/
def shortCall (b : ButtonState) (noteTs : Nat) : Call :=
  if b.pin = BTN_NOTE then ⟨Site.shortPress, b.shortCmd, some (noteExtra noteTs)⟩
  else ⟨Site.shortPress, b.shortCmd, none⟩

/-- Lines 365-367: a change of the raw level restarts the debounce timer. -/
def debounce (b : ButtonState) (reading : Bool) (now : Nat) : ButtonState :=
  if reading ≠ b.lastReading then { b with lastDebounceTime := now } else b

/-- Lines 372-429: the `if / else if / else if` chain run on a stable level. -/
def pressRelease (c : Chan) (reading : Bool) (now noteTs : Nat) : Chan × List Call :=
  let b := c.btn
  if reading = true ∧ b.currentState = false then
    -- Detect press start
    ({ c with btn := { b with currentState := true, pressStartTime := now,
                              longPressFired := false, isPressed := true } }, [])
  else if reading = false ∧ b.currentState = true then
    -- Detect release
    let b1 := { b with currentState := false, isPressed := false }
    let pressDuration := sub32 now b1.pressStartTime
    if b1.longPressFired = false ∧ pressDuration < LONG_PRESS_MS then
      if sub32 now c.lastCommandTime ≥ COMMAND_MIN_INTERVAL then
        ({ btn := b1, lastCommandTime := now }, [shortCall b1 noteTs])
      else ({ c with btn := b1 }, [])
    else ({ c with btn := b1 }, [])
  else if reading = true ∧ b.currentState = true ∧ b.longPressFired = false then
    -- Long press detection
    let pressDuration := sub32 now b.pressStartTime
    if pressDuration ≥ LONG_PRESS_MS ∧ b.longCmd ≠ none then
      ({ c with btn := { b with longPressFired := true } }, [])
    else (c, [])
  else (c, [])

/-- Lines 431-438: continuous command sending during a long press. -/
def continuous (c : Chan) (now : Nat) : Chan × List Call :=
  if c.btn.isPressed = true ∧ c.btn.longPressFired = true ∧ c.btn.longCmd ≠ none then
    if sub32 now c.lastCommandTime ≥ CONTINUOUS_INTERVAL then
      ({ c with lastCommandTime := now }, [⟨Site.continuous, c.btn.longCmd, none⟩])
    else (c, [])
  else (c, [])

/-- The function `handleButton(btn, index)`: the new channel state and the
`sendCommand` calls made, in order. -/
def handleButton (c : Chan) (t : Tick) : Chan × List Call :=
  let b := debounce c.btn t.reading t.now
  let r : Chan × List Call :=
    if sub32 t.now b.lastDebounceTime > DEBOUNCE_MS then
      let r1 := pressRelease { c with btn := b } t.reading t.now t.noteTs
      let r2 := continuous r1.1 t.now
      (r2.1, r1.2 ++ r2.2)
    else ({ c with btn := b }, [])
  ({ r.1 with btn := { r.1.btn with lastReading := t.reading } }, r.2)

/-- The channel state after a sequence of ticks. -/
def run (c : Chan) : List Tick → Chan
  | [] => c
  | t :: ts => run (handleButton c t).1 ts

/-- The `sendCommand` calls of a sequence of ticks, each with the `now` of its tick. -/
def callsOf (c : Chan) : List Tick → List (Nat × Call)
  | [] => []
  | t :: ts => (handleButton c t).2.map (fun k => (t.now, k)) ++ callsOf (handleButton c t).1 ts

/-- A channel as it is at boot: its row of `buttons` and `lastCommandTime[index] = 0`. -/
def bootChan (pin : Nat) (shortCmd longCmd : Option String) : Chan :=
  { btn := initButton pin shortCmd longCmd, lastCommandTime := 0 }

/-- The clock of a tick sequence never goes back and stays below `2^32`
(no wrap of `millis()`), starting at or after `t0`. -/
def clockOk (t0 : Nat) : List Tick → Bool
  | [] => true
  | t :: ts => decide (t0 ≤ t.now) && decide (t.now < 4294967296) && clockOk t.now ts

/-- The logical state stays Pressed through every tick of the sequence. -/
def heldThrough (c : Chan) : List Tick → Bool
  | [] => true
  | t :: ts => (handleButton c t).1.btn.currentState && heldThrough (handleButton c t).1 ts

/-- One physical press as `handleButton` sees it: from Released, tick `p`
accepts the press, the state stays Pressed through `mid`, and tick `r` accepts
the release. -/
def pressEpisode (c : Chan) (p : Tick) (mid : List Tick) (r : Tick) : Bool :=
  !c.btn.currentState && (handleButton c p).1.btn.currentState &&
    heldThrough (handleButton c p).1 mid &&
    !(handleButton (run (handleButton c p).1 mid) r).1.btn.currentState

/-- The `now` of the last tick of a sequence (`t0` when it is empty). -/
def lastNow (t0 : Nat) : List Tick → Nat
  | [] => t0
  | t :: ts => lastNow t.now ts

/-- Facts that hold of a channel after any run on a clock that has not wrapped;
`t` is the time of the last tick. -/
structure Inv (c : Chan) (t : Nat) : Prop where
  ht : t < 4294967296
  lct_le : c.lastCommandTime ≤ t
  ldt_le : c.btn.lastDebounceTime ≤ t
  pst_le : c.btn.pressStartTime ≤ t
  pending : c.btn.lastReading ≠ c.btn.currentState → c.lastCommandTime ≤ c.btn.lastDebounceTime
  fresh : c.btn.currentState = true → c.btn.isPressed = true → c.btn.longPressFired = false →
    c.lastCommandTime + 51 ≤ c.btn.pressStartTime
  releasing : c.btn.currentState = true → c.btn.isPressed = true → c.btn.lastReading = false →
    c.btn.pressStartTime ≤ c.btn.lastDebounceTime

/-- A press was accepted at time `T` and no long press has fired since. -/
structure Armed (c : Chan) (T : Nat) : Prop where
  cs : c.btn.currentState = true
  ip : c.btn.isPressed = true
  lpf : c.btn.longPressFired = false
  pst : c.btn.pressStartTime = T

/-! ## Sending a command -/

/-- The two collaborators `sendCommand` calls: ArduinoJson, which turns the
document built from `cmd`, `seq`, `timestamp` and the extra fields into text,
and the WebSocket server. -/
structure Transport where
  serializeJson : String → Nat → Nat → Option String → String
  sendTXT : Nat → String → Bool

/-- The globals read or written by `sendCommand` and by the activity tracking. -/
structure Globals where
  clientConnected : Bool
  currentClientId : Nat
  commandSeq : Nat
  lastActivityTime : Nat
deriving DecidableEq

/-- What one call of `sendCommand` does besides updating globals: its return
value, the `blinkLED(count, duration)` it makes, and the arguments of
`webSocket.sendTXT` when that call is reached. -/
structure SendResult where
  ok : Bool
  blink : Option (Nat × Nat)
  handed : Option (Nat × String)
deriving DecidableEq

/-- The function `sendCommand(cmd, extraJson)`; `ms` is the `millis()` read for
the `timestamp` field. -/
def sendCommand (io : Transport) (g : Globals) (ms : Nat) (cmd extraJson : Option String) :
    Globals × SendResult :=
  if g.clientConnected = false then (g, ⟨false, none, none⟩)
  else
    match cmd with
    | none => (g, ⟨false, none, none⟩)
    | some name =>
      -- doc["seq"] = commandSeq++
      let seq := g.commandSeq
      let g1 := { g with commandSeq := (g.commandSeq + 1) % 65536 }
      let jsonString := io.serializeJson name seq ms extraJson
      if jsonString.utf8ByteSize ≥ JSON_BUFFER_SIZE then
        (g1, ⟨false, some (4, LED_ERROR_BLINK_MS), none⟩)
      else
        let success := io.sendTXT g1.currentClientId jsonString
        if success = true then
          (g1, ⟨true, some (1, LED_BLINK_MS), some (g1.currentClientId, jsonString)⟩)
        else
          (g1, ⟨false, some (3, LED_ERROR_BLINK_MS), some (g1.currentClientId, jsonString)⟩)

/-- Run the `sendCommand` calls of one `handleButton` tick against the globals;
every call is followed by `lastActivityTime = now`. -/
def sendAll (io : Transport) (now ms : Nat) : Globals → List Call → Globals × List SendResult
  | g, [] => (g, [])
  | g, k :: ks =>
    let r := sendCommand io g ms k.cmd k.extraJson
    let rest := sendAll io now ms { r.1 with lastActivityTime := now } ks
    (rest.1, r.2 :: rest.2)

/-- One `handleButton(&buttons[i], i)` call of `loop` on the whole state:
globals, channel, and the results of the `sendCommand` calls. -/
def handleButtonSys (io : Transport) (g : Globals) (c : Chan) (t : Tick) (ms : Nat) :
    Globals × Chan × List SendResult :=
  let r := handleButton c t
  let s := sendAll io t.now ms g r.2
  (s.1, r.1, s.2)

/-- A compact JSON text for the document, standing in for ArduinoJson where a
concrete serializer is needed. -/
def compactJson (cmd : String) (seq ms : Nat) (extra : Option String) : String :=
  "\x7b\"cmd\":\"" ++ cmd ++ "\",\"seq\":" ++ toString seq ++ ",\"timestamp\":" ++ toString ms ++
    (match extra with
     | none => ""
     | some e => "," ++ e) ++ "\x7d"

/-- A transport whose sends always succeed, with `compactJson` as serializer. -/
def okTransport : Transport := { serializeJson := compactJson, sendTXT := fun _ _ => true }

/-! ## Battery monitor -/

def LOW_BATTERY_THRESHOLD : ℚ := 3.2

/-- The conversion `(adcValue / 4095.0) * 3.3 * 2.0`. -/
def adcToVoltage (adcValue : Nat) : ℚ := (adcValue / 4095) * 3.3 * 2.0

/-- The hysteresis part of `checkBattery` for a sampled voltage: the new value
of the static `lowBatteryWarned` and whether `sendCommand("low_battery", ...)`
was called. -/
def lowBatteryStep (batteryVoltage : ℚ) (lowBatteryWarned : Bool) : Bool × Bool :=
  if batteryVoltage < LOW_BATTERY_THRESHOLD ∧ lowBatteryWarned = false then
    (true, true)
  else if batteryVoltage ≥ LOW_BATTERY_THRESHOLD + 0.1 then
    (false, false)
  else (lowBatteryWarned, false)

/-- The function `checkBattery()` on an ADC reading: the voltage returned, the
new `lowBatteryWarned`, and whether the warning was sent. -/
def checkBattery (adcValue : Nat) (lowBatteryWarned : Bool) : ℚ × Bool × Bool :=
  let v := adcToVoltage adcValue
  (v, lowBatteryStep v lowBatteryWarned)

/-- The flag after a sequence of samples. -/
def warnedAfter (w : Bool) : List ℚ → Bool
  | [] => w
  | v :: vs => warnedAfter (lowBatteryStep v w).1 vs

/-- For each sample of a sequence, whether the warning was sent on it. -/
def warningsOf (w : Bool) : List ℚ → List Bool
  | [] => []
  | v :: vs => (lowBatteryStep v w).2 :: warningsOf (lowBatteryStep v w).1 vs

/-! ## Idle timeout -/

/-- The function `checkIdleTimeout()`: `true` when it calls `enterDeepSleep()`. -/
def checkIdleTimeout (ms lastActivityTime : Nat) : Bool :=
  decide (sub32 ms lastActivityTime > IDLE_TIMEOUT_MS)

/-- The end of `loop()`: `if (!clientConnected) checkIdleTimeout();`, `true`
when `enterDeepSleep()` is called on this tick. -/
def loopIdle (clientConnected : Bool) (ms lastActivityTime : Nat) : Bool :=
  if clientConnected = false then checkIdleTimeout ms lastActivityTime else false

/-! ## WebSocket events -/

/-- The `WStype_t` values of the WebSockets library. -/
inductive WStype where
  | ERROR
  | DISCONNECTED
  | CONNECTED
  | TEXT
  | BIN
  | FRAGMENT_TEXT_START
  | FRAGMENT_BIN_START
  | FRAGMENT
  | FRAGMENT_FIN
  | PING
  | PONG
deriving DecidableEq

/-- The documents `webSocketEvent` sends: the connection status carrying
`doc["seq"]`, the fixed pong text, and the reply to `get_status` carrying
`response["connected"]`. -/
inductive WsReply where
  | connectedStatus (seq : Nat)
  | pong
  | status (connected : Bool)
deriving DecidableEq

/-- What one call of `webSocketEvent` does besides updating globals: the
`webSocket.sendTXT(clientId, ...)` calls and the `blinkLED(count, duration)`. -/
structure WsResult where
  sent : List (Nat × WsReply)
  blink : Option (Nat × Nat)
deriving DecidableEq

/-- What `deserializeJson(doc, payload, length)` and `const char* cmd = doc["cmd"]`
make of the payload of a text event: a deserialization error; a document whose
`cmd` member is missing or not a string, so that `cmd` is a null pointer; or a
document whose `cmd` is the given string. -/
inductive Payload where
  | parseError
  | noCmd
  | cmd (name : String)
deriving DecidableEq

/-- The function `webSocketEvent(clientId, type, payload, length)`; `ms` is the
`millis()` it reads and `payload` is read by the text branch only. The result
is `none` when the call does not return: on a text event whose document has no
string `cmd`, `strcmp(cmd, "ping")` reads through the null pointer before
`lastActivityTime = millis()` is reached. -/
def webSocketEvent (g : Globals) (ms : Nat) (clientId : Nat) (type : WStype)
    (payload : Payload) : Option (Globals × WsResult) :=
  match type with
  | WStype.DISCONNECTED =>
    some (if clientId = g.currentClientId then
            { g with clientConnected := false, currentClientId := 0 }
          else g,
          ⟨[], some (2, LED_ERROR_BLINK_MS)⟩)
  | WStype.CONNECTED =>
    some ({ g with clientConnected := true, currentClientId := clientId,
                   lastActivityTime := ms, commandSeq := (g.commandSeq + 1) % 65536 },
          ⟨[(clientId, WsReply.connectedStatus g.commandSeq)], some (1, LED_BLINK_MS)⟩)
  | WStype.TEXT =>
    match payload with
    | Payload.parseError => some ({ g with lastActivityTime := ms }, ⟨[], none⟩)
    | Payload.noCmd => none
    | Payload.cmd name =>
      some ({ g with lastActivityTime := ms },
            ⟨if name = "ping" then [(clientId, WsReply.pong)]
             else if name = "get_status" then [(clientId, WsReply.status g.clientConnected)]
             else [], none⟩)
  | _ => some (g, ⟨[], none⟩)

/-- One transport event as `webSocketEvent` receives it. -/
structure WsEvent where
  ms : Nat
  clientId : Nat
  type : WStype
  payload : Payload
deriving DecidableEq

/-- The globals after a sequence of transport events, `none` when one of the
calls does not return. -/
def wsRun (g : Globals) : List WsEvent → Option Globals
  | [] => some g
  | e :: es =>
    match webSocketEvent g e.ms e.clientId e.type e.payload with
    | none => none
    | some r => wsRun r.1 es

/-! ## Lemmas on `handleButton` -/

theorem sub32_of_le {a b : Nat} (h : b ≤ a) (ha : a < 4294967296) : sub32 a b = a - b := by
  unfold sub32; omega

theorem sub32_self (a : Nat) : sub32 a a = 0 := by
  unfold sub32; omega

/-! ### One tick of `handleButton`, case by case -/

theorem setLastReading_eq (c : Chan) (r : Bool) (h : c.btn.lastReading = r) :
    ({ c with btn := { c.btn with lastReading := r } } : Chan) = c := by
  obtain ⟨⟨pin, lr, cs, ldt, pst, lpf, ip, sc, lc⟩, lct⟩ := c
  simp only at h
  subst h
  rfl

theorem continuous_lastReading (c : Chan) (n : Nat) :
    (continuous c n).1.btn.lastReading = c.btn.lastReading := by
  simp only [continuous]
  split_ifs <;> rfl

theorem pressRelease_lastReading (c : Chan) (r : Bool) (n ts : Nat) :
    (pressRelease c r n ts).1.btn.lastReading = c.btn.lastReading := by
  simp only [pressRelease]
  split_ifs <;> rfl

/-- The raw level changed: the debounce timer restarts and nothing else happens. -/
theorem hb_changed (c : Chan) (tk : Tick) (h : tk.reading ≠ c.btn.lastReading) :
    handleButton c tk =
      ({ c with btn := { c.btn with lastDebounceTime := tk.now, lastReading := tk.reading } }, []) := by
  simp [handleButton, debounce, h, sub32_self, DEBOUNCE_MS]

/-- The raw level is unchanged but not yet stable: nothing happens. -/
theorem hb_unstable (c : Chan) (tk : Tick) (h : tk.reading = c.btn.lastReading)
    (hs : sub32 tk.now c.btn.lastDebounceTime ≤ DEBOUNCE_MS) :
    handleButton c tk = (c, []) := by
  have hs2 : ¬ (sub32 tk.now c.btn.lastDebounceTime > DEBOUNCE_MS) := by omega
  simp [handleButton, debounce, h, hs2]

/-- The raw level is stable: the press/release chain runs, then the continuous block. -/
theorem hb_stable (c : Chan) (tk : Tick) (h : tk.reading = c.btn.lastReading)
    (hs : sub32 tk.now c.btn.lastDebounceTime > DEBOUNCE_MS) :
    handleButton c tk =
      ((continuous (pressRelease c tk.reading tk.now tk.noteTs).1 tk.now).1,
       (pressRelease c tk.reading tk.now tk.noteTs).2 ++
         (continuous (pressRelease c tk.reading tk.now tk.noteTs).1 tk.now).2) := by
  have e : debounce c.btn tk.reading tk.now = c.btn := by simp [debounce, h]
  have e2 : ({ c with btn := c.btn } : Chan) = c := rfl
  unfold handleButton
  simp only [e, e2, if_pos hs]
  rw [setLastReading_eq]
  rw [continuous_lastReading, pressRelease_lastReading, h]

theorem pressRelease_press (c : Chan) (r : Bool) (n ts : Nat)
    (hr : r = true) (hc : c.btn.currentState = false) :
    pressRelease c r n ts =
      ({ c with btn := { c.btn with currentState := true, pressStartTime := n,
                                    longPressFired := false, isPressed := true } }, []) := by
  simp [pressRelease, hr, hc]

theorem pressRelease_release (c : Chan) (r : Bool) (n ts : Nat)
    (hr : r = false) (hc : c.btn.currentState = true) :
    pressRelease c r n ts =
      if c.btn.longPressFired = false ∧ sub32 n c.btn.pressStartTime < LONG_PRESS_MS ∧
          sub32 n c.lastCommandTime ≥ COMMAND_MIN_INTERVAL then
        ({ btn := { c.btn with currentState := false, isPressed := false },
           lastCommandTime := n },
         [shortCall c.btn ts])
      else ({ c with btn := { c.btn with currentState := false, isPressed := false } }, []) := by
  subst hr
  by_cases h1 : c.btn.longPressFired = false
  · by_cases h2 : sub32 n c.btn.pressStartTime < LONG_PRESS_MS
    · by_cases h3 : sub32 n c.lastCommandTime ≥ COMMAND_MIN_INTERVAL
      · simp [pressRelease, hc, h1, h2, h3, shortCall]
      · simp [pressRelease, hc, h1, h2, h3]
    · simp [pressRelease, hc, h1, h2]
  · simp [pressRelease, hc, h1]

theorem pressRelease_hold (c : Chan) (r : Bool) (n ts : Nat)
    (hr : r = true) (hc : c.btn.currentState = true) :
    pressRelease c r n ts =
      (if c.btn.longPressFired = false ∧ sub32 n c.btn.pressStartTime ≥ LONG_PRESS_MS ∧
            c.btn.longCmd ≠ none then
          { c with btn := { c.btn with longPressFired := true } }
         else c, []) := by
  subst hr
  by_cases h1 : c.btn.longPressFired = false
  · by_cases h2 : sub32 n c.btn.pressStartTime ≥ LONG_PRESS_MS
    · by_cases h3 : c.btn.longCmd = none
      · simp [pressRelease, hc, h1, h2, h3]
      · simp [pressRelease, hc, h1, h2, h3]
    · simp [pressRelease, hc, h1, h2]
  · simp [pressRelease, hc, h1]

theorem pressRelease_idle (c : Chan) (r : Bool) (n ts : Nat)
    (hr : r = false) (hc : c.btn.currentState = false) :
    pressRelease c r n ts = (c, []) := by
  simp [pressRelease, hr, hc]

theorem continuous_released (c : Chan) (n : Nat) (h : c.btn.isPressed = false) :
    continuous c n = (c, []) := by
  simp [continuous, h]

theorem continuous_notFired (c : Chan) (n : Nat) (h : c.btn.longPressFired = false) :
    continuous c n = (c, []) := by
  simp [continuous, h]

theorem continuous_noLongCmd (c : Chan) (n : Nat) (h : c.btn.longCmd = none) :
    continuous c n = (c, []) := by
  simp [continuous, h]

/-- Stable active level while Released: press start. -/
theorem hb_press (c : Chan) (tk : Tick) (h : tk.reading = c.btn.lastReading)
    (hs : sub32 tk.now c.btn.lastDebounceTime > DEBOUNCE_MS)
    (hr : tk.reading = true) (hc : c.btn.currentState = false) :
    handleButton c tk =
      ({ c with btn := { c.btn with currentState := true, pressStartTime := tk.now,
                                    longPressFired := false, isPressed := true } }, []) := by
  rw [hb_stable c tk h hs, pressRelease_press c _ _ _ hr hc, continuous_notFired _ _ rfl]
  rfl

/-- Stable inactive level while Pressed: release, with the short press sent
when no long press fired, the hold was short and the throttle allows it. -/
theorem hb_release (c : Chan) (tk : Tick) (h : tk.reading = c.btn.lastReading)
    (hs : sub32 tk.now c.btn.lastDebounceTime > DEBOUNCE_MS)
    (hr : tk.reading = false) (hc : c.btn.currentState = true) :
    handleButton c tk =
      if c.btn.longPressFired = false ∧ sub32 tk.now c.btn.pressStartTime < LONG_PRESS_MS ∧
          sub32 tk.now c.lastCommandTime ≥ COMMAND_MIN_INTERVAL then
        ({ btn := { c.btn with currentState := false, isPressed := false },
           lastCommandTime := tk.now },
         [shortCall c.btn tk.noteTs])
      else ({ c with btn := { c.btn with currentState := false, isPressed := false } }, []) := by
  rw [hb_stable c tk h hs, pressRelease_release c _ _ _ hr hc]
  split_ifs <;> simp [continuous_released]

/-- Stable active level while Pressed: long-press detection, then the continuous block. -/
theorem hb_hold (c : Chan) (tk : Tick) (h : tk.reading = c.btn.lastReading)
    (hs : sub32 tk.now c.btn.lastDebounceTime > DEBOUNCE_MS)
    (hr : tk.reading = true) (hc : c.btn.currentState = true) :
    handleButton c tk =
      continuous
        (if c.btn.longPressFired = false ∧ sub32 tk.now c.btn.pressStartTime ≥ LONG_PRESS_MS ∧
            c.btn.longCmd ≠ none then
          { c with btn := { c.btn with longPressFired := true } }
         else c) tk.now := by
  rw [hb_stable c tk h hs, pressRelease_hold c _ _ _ hr hc]
  simp

/-- Stable inactive level while Released: only the continuous block runs. -/
theorem hb_idle (c : Chan) (tk : Tick) (h : tk.reading = c.btn.lastReading)
    (hs : sub32 tk.now c.btn.lastDebounceTime > DEBOUNCE_MS)
    (hr : tk.reading = false) (hc : c.btn.currentState = false) :
    handleButton c tk = continuous c tk.now := by
  rw [hb_stable c tk h hs, pressRelease_idle c _ _ _ hr hc]
  simp

/-! ### Facts kept by every run on a clock that has not wrapped -/

theorem continuous_cases (c : Chan) (n : Nat) :
    continuous c n = (c, []) ∨
      (c.btn.isPressed = true ∧ c.btn.longPressFired = true ∧ c.btn.longCmd ≠ none ∧
        sub32 n c.lastCommandTime ≥ CONTINUOUS_INTERVAL ∧
        continuous c n =
          ({ c with lastCommandTime := n }, [⟨Site.continuous, c.btn.longCmd, none⟩])) := by
  simp only [continuous]
  split_ifs with h1 h2
  · exact Or.inr ⟨h1.1, h1.2.1, h1.2.2, h2, rfl⟩
  · exact Or.inl rfl
  · exact Or.inl rfl

theorem inv_boot (pin : Nat) (s l : Option String) : Inv (bootChan pin s l) 0 := by
  constructor <;> simp [bootChan, initButton, HIGH]

theorem inv_mono {c : Chan} {t n : Nat} (h : Inv c t) (h1 : t ≤ n) (h2 : n < 4294967296) :
    Inv c n :=
  ⟨h2, le_trans h.lct_le h1, le_trans h.ldt_le h1, le_trans h.pst_le h1, h.pending, h.fresh,
    h.releasing⟩

theorem inv_continuous {c : Chan} {n : Nat} (h : Inv c n)
    (he : c.btn.lastReading = c.btn.currentState) : Inv (continuous c n).1 n := by
  rcases continuous_cases c n with e | ⟨_, h2, _, _, e⟩
  · rw [e]; exact h
  · rw [e]
    refine ⟨h.ht, le_refl _, h.ldt_le, h.pst_le, fun hne => absurd he hne, ?_, h.releasing⟩
    intro _ _ h3
    simp only at h3
    rw [h2] at h3
    exact absurd h3 (by decide)

theorem stable_le {n l : Nat} (hl : l ≤ n) (hn : n < 4294967296)
    (hs : sub32 n l > DEBOUNCE_MS) : l + 51 ≤ n := by
  rw [sub32_of_le hl hn] at hs
  simp only [DEBOUNCE_MS] at hs
  omega

theorem inv_step {c : Chan} {t : Nat} (h : Inv c t) (tk : Tick) (h1 : t ≤ tk.now)
    (h2 : tk.now < 4294967296) : Inv (handleButton c tk).1 tk.now := by
  have h' := inv_mono h h1 h2
  obtain ⟨a1, a2, a3, a4, a5, a6, a7⟩ := h'
  by_cases hch : tk.reading = c.btn.lastReading
  · by_cases hs : sub32 tk.now c.btn.lastDebounceTime > DEBOUNCE_MS
    · have hs' := stable_le a3 h2 hs
      cases hr : tk.reading <;> cases hc : c.btn.currentState
      · rw [hb_idle c tk hch hs hr hc]
        exact inv_continuous (inv_mono h h1 h2) (by rw [← hch, hr, hc])
      · rw [hb_release c tk hch hs hr hc]
        split_ifs
        · exact ⟨a1, le_refl _, a3, a4, by simp [← hch, hr], by simp, by simp⟩
        · exact ⟨a1, a2, a3, a4, by simp [← hch, hr], by simp, by simp⟩
      · rw [hb_press c tk hch hs hr hc]
        have hp := a5 (by rw [← hch, hr, hc]; decide)
        exact ⟨a1, a2, a3, le_refl _, by simp [← hch, hr], fun _ _ _ => by simp only; omega,
          by simp [← hch, hr]⟩
      · rw [hb_hold c tk hch hs hr hc]
        apply inv_continuous
        · split_ifs
          · exact ⟨a1, a2, a3, a4, by simp [← hch, hr, hc], by simp, by simpa using a7⟩
          · exact inv_mono h h1 h2
        · split_ifs <;> simp [← hch, hr, hc]
    · rw [hb_unstable c tk hch (by omega)]
      exact inv_mono h h1 h2
  · rw [hb_changed c tk hch]
    refine ⟨a1, a2, le_refl _, a4, fun _ => a2, a6, fun _ _ _ => a4⟩

/-- The `now` of the last tick bounds every later tick from below. -/
theorem inv_run {c : Chan} {t : Nat} (h : Inv c t) (ts : List Tick) (hc : clockOk t ts = true) :
    Inv (run c ts) (lastNow t ts) := by
  induction ts generalizing c t with
  | nil => exact h
  | cons tk ts ih =>
    simp only [clockOk, Bool.and_eq_true, decide_eq_true_eq] at hc
    exact ih (inv_step h tk hc.1.1 hc.1.2) hc.2

/-! ### One press -/

theorem continuous_btn (c : Chan) (n : Nat) : (continuous c n).1.btn = c.btn := by
  rcases continuous_cases c n with e | ⟨_, _, _, _, e⟩ <;> rw [e]

/-- A tick that turns the logical state from Released to Pressed is the press branch. -/
theorem accept_press {c : Chan} {tk : Tick} (h0 : c.btn.currentState = false)
    (h1 : (handleButton c tk).1.btn.currentState = true) :
    (handleButton c tk).2 = [] ∧ Armed (handleButton c tk).1 tk.now := by
  by_cases hch : tk.reading = c.btn.lastReading
  · by_cases hs : sub32 tk.now c.btn.lastDebounceTime > DEBOUNCE_MS
    · cases hr : tk.reading
      · rw [hb_idle c tk hch hs hr h0, continuous_btn, h0] at h1
        exact absurd h1 (by decide)
      · rw [hb_press c tk hch hs hr h0]
        exact ⟨rfl, ⟨rfl, rfl, rfl, rfl⟩⟩
    · rw [hb_unstable c tk hch (by omega), h0] at h1
      exact absurd h1 (by decide)
  · rw [hb_changed c tk hch] at h1
    simp only at h1
    rw [h0] at h1
    exact absurd h1 (by decide)

/-- While armed and short of the long-press threshold, a tick that keeps the
logical state Pressed sends nothing and leaves the press as it was. -/
theorem armed_hold {c : Chan} {T : Nat} {tk : Tick} (ha : Armed c T) (hT : T ≤ tk.now)
    (hn : tk.now < 4294967296) (hd : tk.now - T < LONG_PRESS_MS)
    (h1 : (handleButton c tk).1.btn.currentState = true) :
    (handleButton c tk).2 = [] ∧ Armed (handleButton c tk).1 T ∧
      (handleButton c tk).1.lastCommandTime = c.lastCommandTime ∧
      (handleButton c tk).1.btn.pin = c.btn.pin ∧
      (handleButton c tk).1.btn.shortCmd = c.btn.shortCmd := by
  obtain ⟨a1, a2, a3, a4⟩ := ha
  by_cases hch : tk.reading = c.btn.lastReading
  · by_cases hs : sub32 tk.now c.btn.lastDebounceTime > DEBOUNCE_MS
    · cases hr : tk.reading
      · rw [hb_release c tk hch hs hr a1] at h1
        split_ifs at h1
      · have hno : ¬ (c.btn.longPressFired = false ∧
            sub32 tk.now c.btn.pressStartTime ≥ LONG_PRESS_MS ∧ c.btn.longCmd ≠ none) := by
          rw [a4, sub32_of_le hT hn]
          intro h
          have := h.2.1
          omega
        rw [hb_hold c tk hch hs hr a1, if_neg hno, continuous_notFired c _ a3]
        exact ⟨rfl, ⟨a1, a2, a3, a4⟩, rfl, rfl, rfl⟩
    · rw [hb_unstable c tk hch (by omega)]
      exact ⟨rfl, ⟨a1, a2, a3, a4⟩, rfl, rfl, rfl⟩
  · rw [hb_changed c tk hch]
    exact ⟨rfl, ⟨a1, a2, a3, a4⟩, rfl, rfl, rfl⟩

/-- While armed, a tick that turns the logical state to Released before the
long-press threshold sends the short command: on a clock that has not wrapped
the throttle cannot hold it back. -/
theorem armed_release {c : Chan} {T t : Nat} {tk : Tick} (ha : Armed c T) (hi : Inv c t)
    (ht : t ≤ tk.now) (hn : tk.now < 4294967296) (hd : tk.now - T < LONG_PRESS_MS)
    (h1 : (handleButton c tk).1.btn.currentState = false) :
    (handleButton c tk).2 = [shortCall c.btn tk.noteTs] := by
  obtain ⟨a1, a2, a3, a4⟩ := ha
  by_cases hch : tk.reading = c.btn.lastReading
  · by_cases hs : sub32 tk.now c.btn.lastDebounceTime > DEBOUNCE_MS
    · cases hr : tk.reading
      · have hl := stable_le (le_trans hi.ldt_le ht) hn hs
        have hf := hi.fresh a1 a2 a3
        have hrl := hi.releasing a1 a2 (by rw [← hch, hr])
        have hp := hi.pst_le
        have hyes : c.btn.longPressFired = false ∧
            sub32 tk.now c.btn.pressStartTime < LONG_PRESS_MS ∧
            sub32 tk.now c.lastCommandTime ≥ COMMAND_MIN_INTERVAL := by
          refine ⟨a3, ?_, ?_⟩
          · rw [sub32_of_le (by omega) hn, a4]; exact hd
          · rw [sub32_of_le (by omega) hn]; simp only [COMMAND_MIN_INTERVAL]; omega
        rw [hb_release c tk hch hs hr a1, if_pos hyes]
      · rw [hb_hold c tk hch hs hr a1, continuous_btn] at h1
        split_ifs at h1
        · simp only at h1; rw [a1] at h1; exact absurd h1 (by decide)
        · rw [a1] at h1; exact absurd h1 (by decide)
    · rw [hb_unstable c tk hch (by omega), a1] at h1
      exact absurd h1 (by decide)
  · rw [hb_changed c tk hch] at h1
    simp only at h1
    rw [a1] at h1
    exact absurd h1 (by decide)

theorem clockOk_append_last {t : Nat} {ts : List Tick} {r : Tick}
    (h : clockOk t (ts ++ [r]) = true) : t ≤ r.now := by
  induction ts generalizing t with
  | nil =>
    simp only [List.nil_append, clockOk, Bool.and_eq_true, decide_eq_true_eq] at h
    exact h.1.1
  | cons a ts ih =>
    rw [List.cons_append] at h
    simp only [clockOk, Bool.and_eq_true, decide_eq_true_eq] at h
    exact le_trans h.1.1 (ih h.2)

theorem clockOk_append {t : Nat} {ts us : List Tick} (h : clockOk t (ts ++ us) = true) :
    clockOk t ts = true ∧ clockOk (lastNow t ts) us = true := by
  induction ts generalizing t with
  | nil => exact ⟨rfl, h⟩
  | cons a ts ih =>
    rw [List.cons_append] at h
    simp only [clockOk, Bool.and_eq_true, decide_eq_true_eq] at h
    have := ih h.2
    simp only [clockOk, Bool.and_eq_true, decide_eq_true_eq, lastNow]
    exact ⟨⟨h.1, this.1⟩, this.2⟩

theorem callsOf_append (c : Chan) (ts us : List Tick) :
    callsOf c (ts ++ us) = callsOf c ts ++ callsOf (run c ts) us := by
  induction ts generalizing c with
  | nil => rfl
  | cons a ts ih =>
    rw [List.cons_append]
    simp only [callsOf, run, ih, List.append_assoc]

/-- From an armed state: held through `mid`, released at `r` before the
threshold, the calls of the whole stretch are the one short-press call at `r`. -/
theorem armed_episode {c : Chan} {T t : Nat} (mid : List Tick) (r : Tick) (ha : Armed c T)
    (hi : Inv c t) (hT : T ≤ t) (hclk : clockOk t (mid ++ [r]) = true)
    (hheld : heldThrough c mid = true)
    (hrel : (handleButton (run c mid) r).1.btn.currentState = false)
    (hd : r.now - T < LONG_PRESS_MS) :
    callsOf c (mid ++ [r]) = [(r.now, shortCall c.btn r.noteTs)] := by
  induction mid generalizing c t with
  | nil =>
    simp only [List.nil_append, clockOk, Bool.and_eq_true, decide_eq_true_eq] at hclk
    simp only [List.nil_append, callsOf, run] at *
    rw [armed_release ha hi hclk.1.1 hclk.1.2 hd hrel]
    rfl
  | cons m mid ih =>
    rw [List.cons_append] at hclk
    simp only [clockOk, Bool.and_eq_true, decide_eq_true_eq] at hclk
    simp only [heldThrough, Bool.and_eq_true] at hheld
    have hle := clockOk_append_last hclk.2
    obtain ⟨e1, e2, _, e4, e5⟩ :=
      armed_hold ha (le_trans hT hclk.1.1) hclk.1.2 (by omega) hheld.1
    have := ih e2 (inv_step hi m hclk.1.1 hclk.1.2) (le_trans hT hclk.1.1) hclk.2 hheld.2 hrel
    rw [List.cons_append]
    simp only [callsOf, e1, List.map_nil, List.nil_append, this]
    simp only [shortCall, e4, e5]

/-! ### Configuration fields never change -/

theorem hb_config (c : Chan) (tk : Tick) :
    (handleButton c tk).1.btn.pin = c.btn.pin ∧
      (handleButton c tk).1.btn.shortCmd = c.btn.shortCmd ∧
      (handleButton c tk).1.btn.longCmd = c.btn.longCmd := by
  by_cases hch : tk.reading = c.btn.lastReading
  · by_cases hs : sub32 tk.now c.btn.lastDebounceTime > DEBOUNCE_MS
    · cases hr : tk.reading <;> cases hc : c.btn.currentState
      · rw [hb_idle c tk hch hs hr hc, continuous_btn]; exact ⟨rfl, rfl, rfl⟩
      · rw [hb_release c tk hch hs hr hc]; split_ifs <;> exact ⟨rfl, rfl, rfl⟩
      · rw [hb_press c tk hch hs hr hc]; exact ⟨rfl, rfl, rfl⟩
      · rw [hb_hold c tk hch hs hr hc, continuous_btn]; split_ifs <;> exact ⟨rfl, rfl, rfl⟩
    · rw [hb_unstable c tk hch (by omega)]; exact ⟨rfl, rfl, rfl⟩
  · rw [hb_changed c tk hch]; exact ⟨rfl, rfl, rfl⟩

theorem run_config (c : Chan) (ts : List Tick) :
    (run c ts).btn.pin = c.btn.pin ∧ (run c ts).btn.shortCmd = c.btn.shortCmd ∧
      (run c ts).btn.longCmd = c.btn.longCmd := by
  induction ts generalizing c with
  | nil => exact ⟨rfl, rfl, rfl⟩
  | cons a ts ih =>
    obtain ⟨h1, h2, h3⟩ := ih (handleButton c a).1
    obtain ⟨g1, g2, g3⟩ := hb_config c a
    exact ⟨h1.trans g1, h2.trans g2, h3.trans g3⟩

/-! ## The claims -/

/-- C1 as stated fails once `millis()` has wrapped: on the `next` channel,
never used since boot (`lastCommandTime` still 0), a press accepted 110 ms
before the 32-bit clock wraps and released 40 ms after it is held for 150 ms,
but at the release `now - lastCommandTime` is 40, below `COMMAND_MIN_INTERVAL`,
and the throttle drops the short press: no `sendCommand` call is made on any
tick of the press. -/
theorem short_press_after_wrap_counterexample :
    pressEpisode (run (bootChan 2 (some "next") none)
        [⟨false, 2000, 0⟩, ⟨false, 2100, 0⟩, ⟨true, 4294967126, 0⟩])
        ⟨true, 4294967186, 0⟩ [⟨true, 4294967250, 0⟩, ⟨false, 4294967276, 0⟩] ⟨false, 40, 0⟩ = true ∧
    sub32 40 4294967186 = 150 ∧
    callsOf (bootChan 2 (some "next") none)
        [⟨false, 2000, 0⟩, ⟨false, 2100, 0⟩, ⟨true, 4294967126, 0⟩] = [] ∧
    callsOf (run (bootChan 2 (some "next") none)
        [⟨false, 2000, 0⟩, ⟨false, 2100, 0⟩, ⟨true, 4294967126, 0⟩])
        (⟨true, 4294967186, 0⟩ :: ([⟨true, 4294967250, 0⟩, ⟨false, 4294967276, 0⟩] ++
          [⟨false, 40, 0⟩])) = [] := by
  decide

/-- C1, amended: as long as `millis()` has not wrapped since boot (the clock
of the run is non-decreasing and below `2^32`), a press whose hold, from the
tick that accepts the press to the tick that accepts the release, is shorter
than `LONG_PRESS_MS` makes `handleButton` call `sendCommand` exactly once, with
the channel's `shortCmd`, on the release tick; no other call (in particular no
repeat call) is made on any tick of that press. -/
theorem short_press_sends_once (pin : Nat) (shortCmd longCmd : Option String)
    (pre mid : List Tick) (p r : Tick)
    (hclk : clockOk 0 (pre ++ p :: (mid ++ [r])) = true)
    (hpress : pressEpisode (run (bootChan pin shortCmd longCmd) pre) p mid r = true)
    (hhold : r.now - p.now < LONG_PRESS_MS) :
    callsOf (run (bootChan pin shortCmd longCmd) pre) (p :: (mid ++ [r])) =
      [(r.now, ⟨Site.shortPress, shortCmd,
          if pin = BTN_NOTE then some (noteExtra r.noteTs) else none⟩)] := by
  simp only [pressEpisode, Bool.and_eq_true, Bool.not_eq_true'] at hpress
  obtain ⟨⟨⟨h0, h1⟩, h2⟩, h3⟩ := hpress
  obtain ⟨k1, k2⟩ := clockOk_append hclk
  have hi := inv_run (inv_boot pin shortCmd longCmd) pre k1
  simp only [clockOk, Bool.and_eq_true, decide_eq_true_eq] at k2
  obtain ⟨e1, e2⟩ := accept_press h0 h1
  have hi2 := inv_step hi p k2.1.1 k2.1.2
  have hep := armed_episode mid r e2 hi2 (le_refl _) k2.2 h2 h3 hhold
  obtain ⟨c1, c2, _⟩ := hb_config (run (bootChan pin shortCmd longCmd) pre) p
  obtain ⟨d1, d2, _⟩ := run_config (bootChan pin shortCmd longCmd) pre
  simp only [callsOf, e1, List.map_nil, List.nil_append, hep, shortCall, c1, c2, d1, d2]
  simp only [bootChan, initButton]
  split_ifs <;> rfl

/-- C1, amended, at a concrete press: the `next` button, pressed at 3051 ms
and released at 3251 ms after boot. -/
theorem short_press_sends_once_witness :
    callsOf (run (bootChan 2 (some "next") none)
        [⟨false, 2000, 0⟩, ⟨false, 2100, 0⟩, ⟨true, 3000, 0⟩])
        (⟨true, 3051, 0⟩ :: ([⟨true, 3100, 0⟩, ⟨false, 3200, 0⟩] ++ [⟨false, 3251, 0⟩])) =
      [(3251, ⟨Site.shortPress, some "next",
          if 2 = BTN_NOTE then some (noteExtra 0) else none⟩)] :=
  short_press_sends_once 2 (some "next") none
    [⟨false, 2000, 0⟩, ⟨false, 2100, 0⟩, ⟨true, 3000, 0⟩]
    [⟨true, 3100, 0⟩, ⟨false, 3200, 0⟩] ⟨true, 3051, 0⟩ ⟨false, 3251, 0⟩
    (by decide) (by decide) (by decide)

/-- C2 as stated fails at the boundary: with the raw level active and unchanged
for exactly `DEBOUNCE_MS` = 50 ms (`now - lastDebounceTime = 50`, so `>= 50`
holds) while the logical state is Released, `handleButton` does not accept the
press; it accepts it one millisecond later. -/
theorem debounce_boundary_counterexample :
    (run (bootChan 2 (some "next") none)
        [⟨false, 2000, 0⟩, ⟨false, 2100, 0⟩, ⟨true, 3000, 0⟩]).btn.currentState = false ∧
    sub32 3050 (handleButton (run (bootChan 2 (some "next") none)
        [⟨false, 2000, 0⟩, ⟨false, 2100, 0⟩, ⟨true, 3000, 0⟩])
        ⟨true, 3050, 0⟩).1.btn.lastDebounceTime = 50 ∧
    DEBOUNCE_MS = 50 ∧
    (handleButton (run (bootChan 2 (some "next") none)
        [⟨false, 2000, 0⟩, ⟨false, 2100, 0⟩, ⟨true, 3000, 0⟩])
        ⟨true, 3050, 0⟩).1.btn.currentState = false ∧
    (handleButton (run (bootChan 2 (some "next") none)
        [⟨false, 2000, 0⟩, ⟨false, 2100, 0⟩, ⟨true, 3000, 0⟩])
        ⟨true, 3051, 0⟩).1.btn.currentState = true := by
  decide

/-- C2, amended: with `lastDebounceTime` as it stands after the restart check
of this tick, `handleButton` evaluates the logical state exactly when
`now - lastDebounceTime > DEBOUNCE_MS` (strictly more than 50 ms). When the
elapsed time is 50 ms or less, `currentState`, `isPressed`, `pressStartTime`,
`longPressFired` and `lastCommandTime` are unchanged and no command is issued.
When it is more than 50 ms the logical state is set to the raw level: a press
start records `pressStartTime = now`, clears `longPressFired` and sets
`isPressed`; a release clears `isPressed`. -/
theorem debounce_gate (c : Chan) (tk : Tick) :
    (sub32 tk.now (handleButton c tk).1.btn.lastDebounceTime ≤ DEBOUNCE_MS →
      (handleButton c tk).1.btn.currentState = c.btn.currentState ∧
      (handleButton c tk).1.btn.isPressed = c.btn.isPressed ∧
      (handleButton c tk).1.btn.pressStartTime = c.btn.pressStartTime ∧
      (handleButton c tk).1.btn.longPressFired = c.btn.longPressFired ∧
      (handleButton c tk).1.lastCommandTime = c.lastCommandTime ∧
      (handleButton c tk).2 = []) ∧
    (sub32 tk.now (handleButton c tk).1.btn.lastDebounceTime > DEBOUNCE_MS →
      (handleButton c tk).1.btn.currentState = tk.reading ∧
      (tk.reading = true → c.btn.currentState = false →
        (handleButton c tk).1.btn.pressStartTime = tk.now ∧
        (handleButton c tk).1.btn.longPressFired = false ∧
        (handleButton c tk).1.btn.isPressed = true) ∧
      (tk.reading = false → c.btn.currentState = true →
        (handleButton c tk).1.btn.isPressed = false)) := by
  by_cases hch : tk.reading = c.btn.lastReading
  · by_cases hs : sub32 tk.now c.btn.lastDebounceTime > DEBOUNCE_MS
    · cases hr : tk.reading <;> cases hc : c.btn.currentState
      · rw [hb_idle c tk hch hs hr hc, continuous_btn]
        refine ⟨fun h => absurd hs (by omega), fun _ => ⟨hc, ?_, ?_⟩⟩ <;> simp
      · rw [hb_release c tk hch hs hr hc]
        split_ifs
        · refine ⟨fun h => absurd hs (not_lt.mpr h), fun _ => ⟨rfl, ?_, ?_⟩⟩ <;> simp
        · refine ⟨fun h => absurd hs (not_lt.mpr h), fun _ => ⟨rfl, ?_, ?_⟩⟩ <;> simp
      · rw [hb_press c tk hch hs hr hc]
        refine ⟨fun h => absurd hs (not_lt.mpr h), fun _ => ⟨rfl, ?_, ?_⟩⟩ <;> simp
      · rw [hb_hold c tk hch hs hr hc, continuous_btn]
        split_ifs
        · refine ⟨fun h => absurd hs (not_lt.mpr h), fun _ => ⟨hc, ?_, ?_⟩⟩ <;> simp
        · refine ⟨fun h => absurd hs (not_lt.mpr h), fun _ => ⟨hc, ?_, ?_⟩⟩ <;> simp
    · rw [hb_unstable c tk hch (by omega)]
      exact ⟨fun _ => ⟨rfl, rfl, rfl, rfl, rfl, rfl⟩, fun h => absurd h hs⟩
  · rw [hb_changed c tk hch]
    refine ⟨fun _ => ⟨rfl, rfl, rfl, rfl, rfl, rfl⟩, fun h => ?_⟩
    simp only [sub32_self] at h
    exact absurd h (by decide)

/-- C2, amended, at concrete ticks: 50 ms after the level change nothing is
evaluated, 51 ms after it the press is accepted. -/
theorem debounce_gate_witness :
    ((handleButton ⟨⟨2, true, false, 3000, 0, false, false, some "next", none⟩, 0⟩
        ⟨true, 3050, 0⟩).1.btn.currentState = false ∧
      (handleButton ⟨⟨2, true, false, 3000, 0, false, false, some "next", none⟩, 0⟩
        ⟨true, 3050, 0⟩).2 = []) ∧
    (handleButton ⟨⟨2, true, false, 3000, 0, false, false, some "next", none⟩, 0⟩
        ⟨true, 3051, 0⟩).1.btn.pressStartTime = 3051 :=
  ⟨⟨((debounce_gate ⟨⟨2, true, false, 3000, 0, false, false, some "next", none⟩, 0⟩
        ⟨true, 3050, 0⟩).1 (by decide)).1,
    ((debounce_gate ⟨⟨2, true, false, 3000, 0, false, false, some "next", none⟩, 0⟩
        ⟨true, 3050, 0⟩).1 (by decide)).2.2.2.2.2⟩,
   (((debounce_gate ⟨⟨2, true, false, 3000, 0, false, false, some "next", none⟩, 0⟩
        ⟨true, 3051, 0⟩).2 (by decide)).2.1 rfl rfl).1⟩

/-! ### `sendCommand`, outcome by outcome -/

theorem sendCommand_noClient (io : Transport) (g : Globals) (ms : Nat)
    (cmd extraJson : Option String) (h : g.clientConnected = false) :
    sendCommand io g ms cmd extraJson = (g, ⟨false, none, none⟩) := by
  simp [sendCommand, h]

theorem sendCommand_null (io : Transport) (g : Globals) (ms : Nat) (extraJson : Option String) :
    sendCommand io g ms none extraJson = (g, ⟨false, none, none⟩) := by
  simp [sendCommand]

theorem sendCommand_overflow (io : Transport) (g : Globals) (ms : Nat) (name : String)
    (extraJson : Option String) (h : g.clientConnected = true)
    (hl : (io.serializeJson name g.commandSeq ms extraJson).utf8ByteSize ≥ JSON_BUFFER_SIZE) :
    sendCommand io g ms (some name) extraJson =
      ({ g with commandSeq := (g.commandSeq + 1) % 65536 },
       ⟨false, some (4, LED_ERROR_BLINK_MS), none⟩) := by
  simp [sendCommand, h, hl]

theorem sendCommand_fits (io : Transport) (g : Globals) (ms : Nat) (name : String)
    (extraJson : Option String) (h : g.clientConnected = true)
    (hl : (io.serializeJson name g.commandSeq ms extraJson).utf8ByteSize < JSON_BUFFER_SIZE) :
    sendCommand io g ms (some name) extraJson =
      ({ g with commandSeq := (g.commandSeq + 1) % 65536 },
       if io.sendTXT g.currentClientId (io.serializeJson name g.commandSeq ms extraJson) = true
       then ⟨true, some (1, LED_BLINK_MS),
          some (g.currentClientId, io.serializeJson name g.commandSeq ms extraJson)⟩
       else ⟨false, some (3, LED_ERROR_BLINK_MS),
          some (g.currentClientId, io.serializeJson name g.commandSeq ms extraJson)⟩) := by
  have hl2 : ¬ (io.serializeJson name g.commandSeq ms extraJson).utf8ByteSize ≥ JSON_BUFFER_SIZE :=
    not_le.mpr hl
  simp only [sendCommand, h, Bool.true_eq_false, if_false, if_neg hl2]
  split_ifs <;> rfl

theorem sendCommand_seq (io : Transport) (g : Globals) (ms : Nat) (name : String)
    (extraJson : Option String) (h : g.clientConnected = true) :
    (sendCommand io g ms (some name) extraJson).1.commandSeq = (g.commandSeq + 1) % 65536 := by
  by_cases hl : (io.serializeJson name g.commandSeq ms extraJson).utf8ByteSize < JSON_BUFFER_SIZE
  · rw [sendCommand_fits io g ms name extraJson h hl]
  · rw [sendCommand_overflow io g ms name extraJson h (not_lt.mp hl)]

/-! ### Throttle and sequence counter -/

/-- Less than `COMMAND_MIN_INTERVAL` since the channel's last accepted command:
`handleButton` makes no `sendCommand` call. -/
theorem throttled_no_call (c : Chan) (tk : Tick)
    (h : sub32 tk.now c.lastCommandTime < COMMAND_MIN_INTERVAL) : (handleButton c tk).2 = [] := by
  have hcont : ∀ c' : Chan, c'.lastCommandTime = c.lastCommandTime →
      continuous c' tk.now = (c', []) := by
    intro c' e
    rcases continuous_cases c' tk.now with e1 | ⟨_, _, _, h4, _⟩
    · exact e1
    · rw [e] at h4
      simp only [COMMAND_MIN_INTERVAL] at h
      simp only [CONTINUOUS_INTERVAL] at h4
      omega
  by_cases hch : tk.reading = c.btn.lastReading
  · by_cases hs : sub32 tk.now c.btn.lastDebounceTime > DEBOUNCE_MS
    · cases hr : tk.reading <;> cases hc : c.btn.currentState
      · rw [hb_idle c tk hch hs hr hc, hcont c rfl]
      · rw [hb_release c tk hch hs hr hc, if_neg (fun hh => absurd hh.2.2 (not_le.mpr h))]
      · rw [hb_press c tk hch hs hr hc]
      · rw [hb_hold c tk hch hs hr hc]
        split_ifs
        · rw [hcont]; rfl
        · rw [hcont c rfl]
    · rw [hb_unstable c tk hch (by omega)]
  · rw [hb_changed c tk hch]

set_option maxRecDepth 100000 in
/-- C3 as stated fails: with a peer attached, a command whose encoding is 332
bytes long is dropped with the overflow outcome (nothing handed to the
transport, return value false), yet `commandSeq` has gone from 0 to 1. -/
theorem seq_consumed_on_overflow_counterexample :
    (compactJson (String.mk (List.replicate 300 'a')) 0 0 none).utf8ByteSize = 332 ∧
    (sendCommand okTransport ⟨true, 0, 0, 0⟩ 0
        (some (String.mk (List.replicate 300 'a'))) none).2 =
      ⟨false, some (4, LED_ERROR_BLINK_MS), none⟩ ∧
    (sendCommand okTransport ⟨true, 0, 0, 0⟩ 0
        (some (String.mk (List.replicate 300 'a'))) none).1.commandSeq = 1 := by
  decide

/-- C3, amended: `commandSeq` increases by exactly 1 (modulo `2^16`) on every
`sendCommand` call made with a peer attached and a non-null command, whatever
happens afterwards (transmitted, dropped for its size, or failed in the
transport); it is unchanged, and nothing is handed to the transport, when no
peer is attached or the command is null; and a request throttled in
`handleButton` leaves it unchanged. Every transmitted command (return value
true) has consumed exactly one sequence number. -/
theorem seq_consumed_per_built_message (io : Transport) (g : Globals) (ms : Nat)
    (cmd extraJson : Option String) :
    (g.clientConnected = true → cmd ≠ none →
      (sendCommand io g ms cmd extraJson).1.commandSeq = (g.commandSeq + 1) % 65536) ∧
    (g.clientConnected = false ∨ cmd = none →
      (sendCommand io g ms cmd extraJson).1.commandSeq = g.commandSeq ∧
      (sendCommand io g ms cmd extraJson).2.handed = none ∧
      (sendCommand io g ms cmd extraJson).2.ok = false) ∧
    ((sendCommand io g ms cmd extraJson).2.ok = true →
      (sendCommand io g ms cmd extraJson).1.commandSeq = (g.commandSeq + 1) % 65536) ∧
    (∀ (c : Chan) (tk : Tick), sub32 tk.now c.lastCommandTime < COMMAND_MIN_INTERVAL →
      (handleButtonSys io g c tk ms).1.commandSeq = g.commandSeq ∧
      (handleButtonSys io g c tk ms).2.2 = []) := by
  refine ⟨?_, ?_, ?_, ?_⟩
  · intro hc hn
    cases cmd with
    | none => exact absurd rfl hn
    | some name => exact sendCommand_seq io g ms name extraJson hc
  · intro h
    cases hc : g.clientConnected with
    | false => rw [sendCommand_noClient io g ms cmd extraJson hc]; exact ⟨rfl, rfl, rfl⟩
    | true =>
      rcases h with h | h
      · rw [hc] at h; exact absurd h (by decide)
      · subst h; rw [sendCommand_null]; exact ⟨rfl, rfl, rfl⟩
  · intro hok
    cases hc : g.clientConnected with
    | false =>
      rw [sendCommand_noClient io g ms cmd extraJson hc] at hok
      exact absurd hok (by simp)
    | true =>
      cases cmd with
      | none => rw [sendCommand_null] at hok; exact absurd hok (by simp)
      | some name => exact sendCommand_seq io g ms name extraJson hc
  · intro c tk h
    simp only [handleButtonSys, throttled_no_call c tk h, sendAll, and_self]

/-- C3, amended, at concrete calls: a transmitted command takes `commandSeq`
from 7 to 8, and a call with no peer attached leaves it at 7. -/
theorem seq_consumed_per_built_message_witness :
    (sendCommand okTransport ⟨true, 0, 7, 0⟩ 5000 (some "next") none).1.commandSeq = (7 + 1) % 65536 ∧
    (sendCommand okTransport ⟨false, 0, 7, 0⟩ 5000 (some "next") none).1.commandSeq = 7 :=
  ⟨(seq_consumed_per_built_message okTransport ⟨true, 0, 7, 0⟩ 5000 (some "next") none).1 rfl
      (by decide),
   ((seq_consumed_per_built_message okTransport ⟨false, 0, 7, 0⟩ 5000 (some "next") none).2.1
      (Or.inl rfl)).1⟩

set_option maxRecDepth 100000 in
/-- C5 as stated fails at the bound: with a peer attached, a message whose
encoding is exactly `JSON_BUFFER_SIZE` = 256 bytes long (it does not exceed the
bound) is not handed to the transport; it is dropped with the overflow outcome. -/
theorem encode_at_bound_counterexample :
    (compactJson (String.mk (List.replicate 224 'a')) 0 0 none).utf8ByteSize = 256 ∧
    JSON_BUFFER_SIZE = 256 ∧
    (sendCommand okTransport ⟨true, 0, 0, 0⟩ 0
        (some (String.mk (List.replicate 224 'a'))) none).2 =
      ⟨false, some (4, LED_ERROR_BLINK_MS), none⟩ := by
  decide

/-- C5, amended: with a peer attached and a non-null command, `sendCommand`
hands the encoded message to the transport if and only if its encoded length is
strictly less than `JSON_BUFFER_SIZE` (at most 255 bytes), and then hands over
exactly that text for `currentClientId`; a message of 256 bytes or more is
dropped with the overflow outcome (4 error blinks, return value false) and
nothing is handed to the transport. -/
theorem encode_bound (io : Transport) (g : Globals) (ms : Nat) (name : String)
    (extraJson : Option String) (hc : g.clientConnected = true) :
    ((sendCommand io g ms (some name) extraJson).2.handed ≠ none ↔
      (io.serializeJson name g.commandSeq ms extraJson).utf8ByteSize < JSON_BUFFER_SIZE) ∧
    ((io.serializeJson name g.commandSeq ms extraJson).utf8ByteSize < JSON_BUFFER_SIZE →
      (sendCommand io g ms (some name) extraJson).2.handed =
        some (g.currentClientId, io.serializeJson name g.commandSeq ms extraJson)) ∧
    ((io.serializeJson name g.commandSeq ms extraJson).utf8ByteSize ≥ JSON_BUFFER_SIZE →
      (sendCommand io g ms (some name) extraJson).2 =
        ⟨false, some (4, LED_ERROR_BLINK_MS), none⟩) := by
  by_cases hlen : (io.serializeJson name g.commandSeq ms extraJson).utf8ByteSize < JSON_BUFFER_SIZE
  · have e : (sendCommand io g ms (some name) extraJson).2.handed =
        some (g.currentClientId, io.serializeJson name g.commandSeq ms extraJson) := by
      rw [sendCommand_fits io g ms name extraJson hc hlen]
      split_ifs <;> rfl
    rw [e]
    exact ⟨⟨fun _ => hlen, fun _ => by simp⟩, fun _ => rfl, fun h => absurd hlen (not_lt.mpr h)⟩
  · rw [sendCommand_overflow io g ms name extraJson hc (not_lt.mp hlen)]
    exact ⟨⟨fun h => absurd rfl h, fun h => absurd h hlen⟩, fun h => absurd h hlen, fun _ => rfl⟩

/-- C5, amended, at a concrete call: the 46-byte `next` message is handed over. -/
theorem encode_bound_witness :
    (sendCommand okTransport ⟨true, 3, 0, 0⟩ 5000 (some "next") none).2.handed =
      some (3, okTransport.serializeJson "next" 0 5000 none) :=
  (encode_bound okTransport ⟨true, 3, 0, 0⟩ 5000 "next" none rfl).2.1 (by decide)

/-! ### Spacing of accepted commands -/

/-- On a clock that has not wrapped, one tick makes no call and leaves
`lastCommandTime` alone, or makes exactly one call, sets `lastCommandTime` to
`now`, and `now` is at least `COMMAND_MIN_INTERVAL` after the previous value. -/
theorem hb_call_cases (c : Chan) (tk : Tick) (hl : c.lastCommandTime ≤ tk.now)
    (hn : tk.now < 4294967296) :
    ((handleButton c tk).2 = [] ∧ (handleButton c tk).1.lastCommandTime = c.lastCommandTime) ∨
    (∃ k, (handleButton c tk).2 = [k] ∧ (handleButton c tk).1.lastCommandTime = tk.now ∧
      c.lastCommandTime + COMMAND_MIN_INTERVAL ≤ tk.now) := by
  have hcont : ∀ c' : Chan, c'.lastCommandTime = c.lastCommandTime →
      ((continuous c' tk.now).2 = [] ∧
        (continuous c' tk.now).1.lastCommandTime = c.lastCommandTime) ∨
      (∃ k, (continuous c' tk.now).2 = [k] ∧ (continuous c' tk.now).1.lastCommandTime = tk.now ∧
        c.lastCommandTime + COMMAND_MIN_INTERVAL ≤ tk.now) := by
    intro c' e
    rcases continuous_cases c' tk.now with e1 | ⟨_, _, _, h4, e1⟩
    · rw [e1]; exact Or.inl ⟨rfl, e⟩
    · rw [e1]
      refine Or.inr ⟨_, rfl, rfl, ?_⟩
      rw [e, sub32_of_le hl hn] at h4
      simp only [CONTINUOUS_INTERVAL] at h4
      simp only [COMMAND_MIN_INTERVAL]
      omega
  by_cases hch : tk.reading = c.btn.lastReading
  · by_cases hs : sub32 tk.now c.btn.lastDebounceTime > DEBOUNCE_MS
    · cases hr : tk.reading <;> cases hc : c.btn.currentState
      · rw [hb_idle c tk hch hs hr hc]; exact hcont c rfl
      · rw [hb_release c tk hch hs hr hc]
        split_ifs with h
        · refine Or.inr ⟨_, rfl, rfl, ?_⟩
          have := h.2.2
          rw [sub32_of_le hl hn] at this
          omega
        · exact Or.inl ⟨rfl, rfl⟩
      · rw [hb_press c tk hch hs hr hc]; exact Or.inl ⟨rfl, rfl⟩
      · rw [hb_hold c tk hch hs hr hc]
        split_ifs
        · exact hcont _ rfl
        · exact hcont c rfl
    · rw [hb_unstable c tk hch (by omega)]; exact Or.inl ⟨rfl, rfl⟩
  · rw [hb_changed c tk hch]; exact Or.inl ⟨rfl, rfl⟩

theorem calls_spaced_aux (c : Chan) (t0 : Nat) (ticks : List Tick)
    (h0 : c.lastCommandTime ≤ t0) (hclk : clockOk t0 ticks = true) :
    (∀ x ∈ callsOf c ticks, c.lastCommandTime + COMMAND_MIN_INTERVAL ≤ x.1) ∧
    (callsOf c ticks).Pairwise (fun a b => a.1 + COMMAND_MIN_INTERVAL ≤ b.1) := by
  induction ticks generalizing c t0 with
  | nil => exact ⟨fun x hx => absurd hx (List.not_mem_nil x), List.Pairwise.nil⟩
  | cons tk ticks ih =>
    simp only [clockOk, Bool.and_eq_true, decide_eq_true_eq] at hclk
    obtain ⟨⟨h1, h2⟩, h3⟩ := hclk
    rcases hb_call_cases c tk (le_trans h0 h1) h2 with ⟨e1, e2⟩ | ⟨k, e1, e2, e3⟩
    · have := ih (handleButton c tk).1 tk.now (by rw [e2]; exact le_trans h0 h1) h3
      rw [e2] at this
      simpa only [callsOf, e1, List.map_nil, List.nil_append] using this
    · have := ih (handleButton c tk).1 tk.now (by rw [e2]) h3
      rw [e2] at this
      simp only [callsOf, e1, List.map_cons, List.map_nil, List.singleton_append,
        List.mem_cons, List.pairwise_cons]
      refine ⟨?_, this.1, this.2⟩
      rintro x (rfl | hx)
      · exact e3
      · have := this.1 x hx
        omega

/-- C4: on a non-decreasing clock that does not wrap, any two commands that
`handleButton` accepts for a channel (any two of its `sendCommand` calls, each
of which sets `lastCommandTime[index]`) are at least `COMMAND_MIN_INTERVAL`
apart; in particular no tick accepts two. -/
theorem accepted_commands_spaced (c : Chan) (t0 : Nat) (ticks : List Tick)
    (h0 : c.lastCommandTime ≤ t0) (hclk : clockOk t0 ticks = true) :
    (callsOf c ticks).Pairwise (fun a b => a.1 + COMMAND_MIN_INTERVAL ≤ b.1) :=
  (calls_spaced_aux c t0 ticks h0 hclk).2

/-- C4 on a run of the `volume_up` channel that accepts three commands: a
short press at 3251 ms, then repeats at 5000 ms and 5200 ms of a long press. -/
theorem accepted_commands_spaced_witness :
    (callsOf (bootChan 12 (some "volume_up") (some "volume_up"))
      [⟨false, 2000, 0⟩, ⟨false, 2100, 0⟩, ⟨true, 3000, 0⟩, ⟨true, 3051, 0⟩, ⟨false, 3200, 0⟩,
       ⟨false, 3251, 0⟩, ⟨true, 3400, 0⟩, ⟨true, 3500, 0⟩, ⟨true, 5000, 0⟩, ⟨true, 5100, 0⟩,
       ⟨true, 5200, 0⟩]).Pairwise (fun a b => a.1 + COMMAND_MIN_INTERVAL ≤ b.1) :=
  accepted_commands_spaced (bootChan 12 (some "volume_up") (some "volume_up")) 0
    [⟨false, 2000, 0⟩, ⟨false, 2100, 0⟩, ⟨true, 3000, 0⟩, ⟨true, 3051, 0⟩, ⟨false, 3200, 0⟩,
     ⟨false, 3251, 0⟩, ⟨true, 3400, 0⟩, ⟨true, 3500, 0⟩, ⟨true, 5000, 0⟩, ⟨true, 5100, 0⟩,
     ⟨true, 5200, 0⟩] (by decide) (by decide)

/-! ### Calls while the state stays Pressed, and at release -/

/-- A tick after which the logical state is Pressed makes no short-press call. -/
theorem pressed_after_calls (c : Chan) (tk : Tick)
    (h1 : (handleButton c tk).1.btn.currentState = true) :
    ∀ k ∈ (handleButton c tk).2, k.site = Site.continuous := by
  have hcont : ∀ c' : Chan, ∀ k ∈ (continuous c' tk.now).2, k.site = Site.continuous := by
    intro c' k hk
    rcases continuous_cases c' tk.now with e | ⟨_, _, _, _, e⟩
    · rw [e] at hk; exact absurd hk (List.not_mem_nil k)
    · rw [e] at hk
      simp only [List.mem_singleton] at hk
      rw [hk]
  by_cases hch : tk.reading = c.btn.lastReading
  · by_cases hs : sub32 tk.now c.btn.lastDebounceTime > DEBOUNCE_MS
    · cases hr : tk.reading <;> cases hc : c.btn.currentState
      · rw [hb_idle c tk hch hs hr hc]; exact hcont c
      · rw [hb_release c tk hch hs hr hc] at h1
        split_ifs at h1
      · rw [hb_press c tk hch hs hr hc]; exact fun k hk => absurd hk (List.not_mem_nil k)
      · rw [hb_hold c tk hch hs hr hc]; exact hcont _
    · rw [hb_unstable c tk hch (by omega)]; exact fun k hk => absurd hk (List.not_mem_nil k)
  · rw [hb_changed c tk hch]; exact fun k hk => absurd hk (List.not_mem_nil k)

theorem held_calls (c : Chan) (mid : List Tick) (h : heldThrough c mid = true) :
    ∀ x ∈ callsOf c mid, x.2.site = Site.continuous := by
  induction mid generalizing c with
  | nil => exact fun x hx => absurd hx (List.not_mem_nil x)
  | cons m mid ih =>
    simp only [heldThrough, Bool.and_eq_true] at h
    intro x hx
    simp only [callsOf, List.mem_append, List.mem_map] at hx
    rcases hx with ⟨k, hk, rfl⟩ | hx
    · exact pressed_after_calls c m h.1 k hk
    · exact ih _ h.2 x hx

/-- The tick that accepts a release, seen from the state before it. -/
theorem accept_release {c : Chan} {tk : Tick} (h0 : c.btn.currentState = true)
    (h1 : (handleButton c tk).1.btn.currentState = false) :
    (handleButton c tk).2 =
      if c.btn.longPressFired = false ∧ sub32 tk.now c.btn.pressStartTime < LONG_PRESS_MS ∧
          sub32 tk.now c.lastCommandTime ≥ COMMAND_MIN_INTERVAL then
        [shortCall c.btn tk.noteTs]
      else [] := by
  by_cases hch : tk.reading = c.btn.lastReading
  · by_cases hs : sub32 tk.now c.btn.lastDebounceTime > DEBOUNCE_MS
    · cases hr : tk.reading
      · rw [hb_release c tk hch hs hr h0]
        split_ifs <;> rfl
      · rw [hb_hold c tk hch hs hr h0, continuous_btn] at h1
        split_ifs at h1
        · simp only at h1; rw [h0] at h1; exact absurd h1 (by decide)
        · rw [h0] at h1; exact absurd h1 (by decide)
    · rw [hb_unstable c tk hch (by omega), h0] at h1
      exact absurd h1 (by decide)
  · rw [hb_changed c tk hch] at h1
    simp only at h1
    rw [h0] at h1
    exact absurd h1 (by decide)

theorem held_currentState (c : Chan) (mid : List Tick) (h0 : c.btn.currentState = true)
    (h : heldThrough c mid = true) : (run c mid).btn.currentState = true := by
  induction mid generalizing c with
  | nil => exact h0
  | cons m mid ih =>
    simp only [heldThrough, Bool.and_eq_true] at h
    exact ih _ h.1 h.2

/-- C6: when `longPressFired` was set during a press, the tick that accepts
the release issues no command at all, and no `sendCommand` call of the whole
press (from the tick that accepts the press to the tick that accepts the
release) comes from the short-press site: the press results in zero short-press
sends. -/
theorem long_press_suppresses_short (c : Chan) (p : Tick) (mid : List Tick) (r : Tick)
    (hpress : pressEpisode c p mid r = true)
    (hfired : (run (handleButton c p).1 mid).btn.longPressFired = true) :
    (handleButton (run (handleButton c p).1 mid) r).2 = [] ∧
    ∀ x ∈ callsOf c (p :: (mid ++ [r])), x.2.site ≠ Site.shortPress := by
  simp only [pressEpisode, Bool.and_eq_true, Bool.not_eq_true'] at hpress
  obtain ⟨⟨⟨h0, h1⟩, h2⟩, h3⟩ := hpress
  have hcs := held_currentState _ mid h1 h2
  have hrel : (handleButton (run (handleButton c p).1 mid) r).2 = [] := by
    rw [accept_release hcs h3, if_neg]
    intro hh
    rw [hfired] at hh
    exact absurd hh.1 (by decide)
  refine ⟨hrel, ?_⟩
  intro x hx
  simp only [callsOf, callsOf_append, hrel, List.map_nil, List.append_nil, List.mem_append,
    List.mem_map] at hx
  rcases hx with ⟨k, hk, rfl⟩ | hx
  · rw [pressed_after_calls c p h1 k hk]; decide
  · rw [held_calls _ mid h2 x hx]; decide

/-- C6 on the `volume_up` channel: pressed at 3051 ms, long press fired at
4551 ms, release accepted at 4851 ms. -/
theorem long_press_suppresses_short_witness :
    (handleButton (run (handleButton (run (bootChan 12 (some "volume_up") (some "volume_up"))
        [⟨false, 2000, 0⟩, ⟨false, 2100, 0⟩, ⟨true, 3000, 0⟩]) ⟨true, 3051, 0⟩).1
        [⟨true, 4551, 0⟩, ⟨true, 4751, 0⟩, ⟨false, 4800, 0⟩]) ⟨false, 4851, 0⟩).2 = [] ∧
    ∀ x ∈ callsOf (run (bootChan 12 (some "volume_up") (some "volume_up"))
        [⟨false, 2000, 0⟩, ⟨false, 2100, 0⟩, ⟨true, 3000, 0⟩])
        (⟨true, 3051, 0⟩ :: ([⟨true, 4551, 0⟩, ⟨true, 4751, 0⟩, ⟨false, 4800, 0⟩] ++
          [⟨false, 4851, 0⟩])), x.2.site ≠ Site.shortPress :=
  long_press_suppresses_short
    (run (bootChan 12 (some "volume_up") (some "volume_up"))
      [⟨false, 2000, 0⟩, ⟨false, 2100, 0⟩, ⟨true, 3000, 0⟩])
    ⟨true, 3051, 0⟩ [⟨true, 4551, 0⟩, ⟨true, 4751, 0⟩, ⟨false, 4800, 0⟩] ⟨false, 4851, 0⟩
    (by decide) (by decide)

/-! ### Channels without a repeat command -/

theorem noLong_lpf_step (c : Chan) (tk : Tick) (h : c.btn.longCmd = none)
    (h1 : c.btn.longPressFired = false) : (handleButton c tk).1.btn.longPressFired = false := by
  by_cases hch : tk.reading = c.btn.lastReading
  · by_cases hs : sub32 tk.now c.btn.lastDebounceTime > DEBOUNCE_MS
    · cases hr : tk.reading <;> cases hc : c.btn.currentState
      · rw [hb_idle c tk hch hs hr hc, continuous_btn]; exact h1
      · rw [hb_release c tk hch hs hr hc]; split_ifs <;> exact h1
      · rw [hb_press c tk hch hs hr hc]
      · rw [hb_hold c tk hch hs hr hc, continuous_btn,
          if_neg (fun hh => absurd h hh.2.2)]
        exact h1
    · rw [hb_unstable c tk hch (by omega)]; exact h1
  · rw [hb_changed c tk hch]; exact h1

theorem noLong_lpf_run (c : Chan) (ticks : List Tick) (h : c.btn.longCmd = none)
    (h1 : c.btn.longPressFired = false) : (run c ticks).btn.longPressFired = false := by
  induction ticks generalizing c with
  | nil => exact h1
  | cons tk ticks ih =>
    exact ih _ ((hb_config c tk).2.2.trans h) (noLong_lpf_step c tk h h1)

theorem noLong_pressed_no_call (c : Chan) (tk : Tick) (h : c.btn.longCmd = none)
    (h1 : (handleButton c tk).1.btn.currentState = true) : (handleButton c tk).2 = [] := by
  by_cases hch : tk.reading = c.btn.lastReading
  · by_cases hs : sub32 tk.now c.btn.lastDebounceTime > DEBOUNCE_MS
    · cases hr : tk.reading <;> cases hc : c.btn.currentState
      · rw [hb_idle c tk hch hs hr hc, continuous_noLongCmd c _ h]
      · rw [hb_release c tk hch hs hr hc] at h1
        split_ifs at h1
      · rw [hb_press c tk hch hs hr hc]
      · rw [hb_hold c tk hch hs hr hc, if_neg (fun hh => absurd h hh.2.2),
          continuous_noLongCmd c _ h]
    · rw [hb_unstable c tk hch (by omega)]
  · rw [hb_changed c tk hch]

theorem held_pressStart_step (c : Chan) (tk : Tick) (h0 : c.btn.currentState = true)
    (h1 : (handleButton c tk).1.btn.currentState = true) :
    (handleButton c tk).1.btn.pressStartTime = c.btn.pressStartTime := by
  by_cases hch : tk.reading = c.btn.lastReading
  · by_cases hs : sub32 tk.now c.btn.lastDebounceTime > DEBOUNCE_MS
    · cases hr : tk.reading
      · rw [hb_release c tk hch hs hr h0] at h1
        split_ifs at h1
      · rw [hb_hold c tk hch hs hr h0, continuous_btn]
        split_ifs <;> rfl
    · rw [hb_unstable c tk hch (by omega)]
  · rw [hb_changed c tk hch]

theorem held_pressStart (c : Chan) (mid : List Tick) (h0 : c.btn.currentState = true)
    (h : heldThrough c mid = true) :
    (run c mid).btn.pressStartTime = c.btn.pressStartTime := by
  induction mid generalizing c with
  | nil => rfl
  | cons m mid ih =>
    simp only [heldThrough, Bool.and_eq_true] at h
    exact (ih _ h.1 h.2).trans (held_pressStart_step c m h0 h.1)

theorem noLong_held_calls (c : Chan) (mid : List Tick) (hcfg : c.btn.longCmd = none)
    (h : heldThrough c mid = true) : callsOf c mid = [] := by
  induction mid generalizing c with
  | nil => rfl
  | cons m mid ih =>
    simp only [heldThrough, Bool.and_eq_true] at h
    simp only [callsOf, noLong_pressed_no_call c m hcfg h.1, List.map_nil, List.nil_append]
    exact ih _ ((hb_config c m).2.2.trans hcfg) h.2

/-- C7 as stated fails for a hold that outlasts the 32-bit clock: on the
`next` channel (no repeat command) the press is accepted at 3051 ms and is
still held at 5000 ms, when the hold has reached 1949 ms; the button stays
held while `millis()` wraps, and the release is accepted at 3201 ms of the
next round. There `now - pressStartTime` is 150 again, below `LONG_PRESS_MS`,
and the release tick calls `sendCommand("next")`. -/
theorem no_repeat_hold_wraps_counterexample :
    pressEpisode (run (bootChan 2 (some "next") none)
        [⟨false, 2000, 0⟩, ⟨false, 2100, 0⟩, ⟨true, 3000, 0⟩])
        ⟨true, 3051, 0⟩ [⟨true, 5000, 0⟩, ⟨true, 4294967290, 0⟩, ⟨true, 3100, 0⟩, ⟨false, 3150, 0⟩]
        ⟨false, 3201, 0⟩ = true ∧
    sub32 5000 3051 = 1949 ∧
    (handleButton (run (bootChan 2 (some "next") none)
        [⟨false, 2000, 0⟩, ⟨false, 2100, 0⟩, ⟨true, 3000, 0⟩, ⟨true, 3051, 0⟩, ⟨true, 5000, 0⟩,
         ⟨true, 4294967290, 0⟩, ⟨true, 3100, 0⟩, ⟨false, 3150, 0⟩])
        ⟨false, 3201, 0⟩).2 = [⟨Site.shortPress, some "next", none⟩] := by
  decide

/-- C7, amended: for a channel with no repeat command (`longCmd` null),
`handleButton` never sets `longPressFired`; it issues no command on a tick on
which the channel remains Pressed, however long it is held; and a press whose
hold as the code measures it, `now - pressStartTime` modulo `2^32`, is at
least `LONG_PRESS_MS` on the tick that accepts its release issues no command on
any of its ticks, the release tick included. That covers every hold from
`LONG_PRESS_MS` up to `2^32` ms, across a wrap of `millis()` or not. -/
theorem no_repeat_command_channel (c : Chan) (hcfg : c.btn.longCmd = none) :
    (∀ ticks : List Tick, c.btn.longPressFired = false →
      (run c ticks).btn.longPressFired = false) ∧
    (∀ tk : Tick, c.btn.currentState = true →
      (handleButton c tk).1.btn.currentState = true → (handleButton c tk).2 = []) ∧
    (∀ (p : Tick) (mid : List Tick) (r : Tick),
      pressEpisode c p mid r = true → LONG_PRESS_MS ≤ sub32 r.now p.now →
      callsOf c (p :: (mid ++ [r])) = []) := by
  refine ⟨fun ticks h => noLong_lpf_run c ticks hcfg h,
    fun tk _ h1 => noLong_pressed_no_call c tk hcfg h1, ?_⟩
  intro p mid r hpress hlong
  simp only [pressEpisode, Bool.and_eq_true, Bool.not_eq_true'] at hpress
  obtain ⟨⟨⟨h0, h1⟩, h2⟩, h3⟩ := hpress
  obtain ⟨e1, e2⟩ := accept_press h0 h1
  have hcfg1 : (handleButton c p).1.btn.longCmd = none := (hb_config c p).2.2.trans hcfg
  have hcs := held_currentState _ mid h1 h2
  have hpst : (run (handleButton c p).1 mid).btn.pressStartTime = p.now :=
    (held_pressStart _ mid h1 h2).trans e2.pst
  have hrel : (handleButton (run (handleButton c p).1 mid) r).2 = [] := by
    rw [accept_release hcs h3, if_neg]
    intro hh
    have := hh.2.1
    rw [hpst] at this
    omega
  simp only [callsOf, callsOf_append, e1, noLong_held_calls _ mid hcfg1 h2, hrel, List.map_nil,
    List.append_nil]

/-- C7, amended, on the `next` channel: pressed at 3051 ms, held past the
threshold, release accepted at 4851 ms: no command on any tick of the press. -/
theorem no_repeat_command_channel_witness :
    callsOf (run (bootChan 2 (some "next") none)
        [⟨false, 2000, 0⟩, ⟨false, 2100, 0⟩, ⟨true, 3000, 0⟩])
        (⟨true, 3051, 0⟩ :: ([⟨true, 4551, 0⟩, ⟨true, 4751, 0⟩, ⟨false, 4800, 0⟩] ++
          [⟨false, 4851, 0⟩])) = [] :=
  (no_repeat_command_channel
      (run (bootChan 2 (some "next") none)
        [⟨false, 2000, 0⟩, ⟨false, 2100, 0⟩, ⟨true, 3000, 0⟩]) (by decide)).2.2
    ⟨true, 3051, 0⟩ [⟨true, 4551, 0⟩, ⟨true, 4751, 0⟩, ⟨false, 4800, 0⟩] ⟨false, 4851, 0⟩
    (by decide) (by decide)

/-! ### The first repeat of a long press -/

theorem continuous_fire (c : Chan) (n : Nat) (h1 : c.btn.isPressed = true)
    (h2 : c.btn.longPressFired = true) (h3 : c.btn.longCmd ≠ none)
    (h4 : sub32 n c.lastCommandTime ≥ CONTINUOUS_INTERVAL) :
    continuous c n = ({ c with lastCommandTime := n }, [⟨Site.continuous, c.btn.longCmd, none⟩]) := by
  simp only [continuous]
  rw [if_pos ⟨h1, h2, h3⟩, if_pos h4]

/-- Held active, long press fired, last command at `T`: a tick less than
`CONTINUOUS_INTERVAL` after `T` changes nothing and sends nothing. -/
theorem quiet_step (c : Chan) (T : Nat) (x : Tick) (hcs : c.btn.currentState = true)
    (hlr : c.btn.lastReading = true) (hlpf : c.btn.longPressFired = true)
    (hlct : c.lastCommandTime = T) (hr : x.reading = true) (h1 : T ≤ x.now)
    (h2 : x.now < T + CONTINUOUS_INTERVAL) (h3 : x.now < 4294967296) :
    handleButton c x = (c, []) := by
  have hch : x.reading = c.btn.lastReading := by rw [hr, hlr]
  by_cases hs : sub32 x.now c.btn.lastDebounceTime > DEBOUNCE_MS
  · rw [hb_hold c x hch hs hr hcs, if_neg (fun hh => by rw [hlpf] at hh; exact absurd hh.1 (by decide))]
    rcases continuous_cases c x.now with e | ⟨_, _, _, h4, _⟩
    · exact e
    · rw [hlct, sub32_of_le h1 h3] at h4
      omega
  · exact hb_unstable c x hch (by omega)

theorem quiet_run (c : Chan) (T t : Nat) (ticks : List Tick) (hcs : c.btn.currentState = true)
    (hlr : c.btn.lastReading = true) (hlpf : c.btn.longPressFired = true)
    (hlct : c.lastCommandTime = T) (hT : T ≤ t) (hclk : clockOk t ticks = true)
    (hall : ∀ x ∈ ticks, x.reading = true ∧ x.now < T + CONTINUOUS_INTERVAL) :
    callsOf c ticks = [] := by
  induction ticks generalizing t with
  | nil => rfl
  | cons x ticks ih =>
    simp only [clockOk, Bool.and_eq_true, decide_eq_true_eq] at hclk
    have hx := hall x (List.mem_cons_self x ticks)
    have e := quiet_step c T x hcs hlr hlpf hlct hx.1 (le_trans hT hclk.1.1) hx.2 hclk.1.2
    simp only [callsOf, e, List.map_nil, List.nil_append]
    exact ih (t := x.now) (le_trans hT hclk.1.1) hclk.2
      (fun y hy => hall y (List.mem_cons_of_mem x hy))

/-- C8 as stated fails: on the `volume_up` channel, pressed at 3051 ms with no
command issued before, the tick at 4551 ms (1500 ms of hold) is the one on
which `longPressFired` becomes true, and the first repeat command is issued on
that very tick, not 200 ms later. -/
theorem first_repeat_delay_counterexample :
    callsOf (bootChan 12 (some "volume_up") (some "volume_up"))
      [⟨false, 2000, 0⟩, ⟨false, 2100, 0⟩, ⟨true, 3000, 0⟩, ⟨true, 3051, 0⟩, ⟨true, 4550, 0⟩] = [] ∧
    (run (bootChan 12 (some "volume_up") (some "volume_up"))
      [⟨false, 2000, 0⟩, ⟨false, 2100, 0⟩, ⟨true, 3000, 0⟩, ⟨true, 3051, 0⟩,
       ⟨true, 4550, 0⟩]).btn.longPressFired = false ∧
    (handleButton (run (bootChan 12 (some "volume_up") (some "volume_up"))
      [⟨false, 2000, 0⟩, ⟨false, 2100, 0⟩, ⟨true, 3000, 0⟩, ⟨true, 3051, 0⟩, ⟨true, 4550, 0⟩])
      ⟨true, 4551, 0⟩).1.btn.longPressFired = true ∧
    (handleButton (run (bootChan 12 (some "volume_up") (some "volume_up"))
      [⟨false, 2000, 0⟩, ⟨false, 2100, 0⟩, ⟨true, 3000, 0⟩, ⟨true, 3051, 0⟩, ⟨true, 4550, 0⟩])
      ⟨true, 4551, 0⟩).2 = [⟨Site.continuous, some "volume_up", none⟩] := by
  decide

/-- C8, amended: for a press accepted by `handleButton` on a channel that has
issued no command in the preceding `CONTINUOUS_INTERVAL`, the tick on which
`longPressFired` becomes true (the hold has reached `LONG_PRESS_MS` and a repeat
command is configured) itself issues the first repeat command, carrying
`longCmd`; while the channel stays held, no further command is issued at any
tick less than `CONTINUOUS_INTERVAL` after it. -/
theorem first_repeat_on_long_press_tick (c : Chan) (tk : Tick)
    (hip : c.btn.isPressed = true) (h0 : c.btn.longPressFired = false)
    (h1 : (handleButton c tk).1.btn.longPressFired = true)
    (hq : sub32 tk.now c.lastCommandTime ≥ CONTINUOUS_INTERVAL) :
    (handleButton c tk).2 = [⟨Site.continuous, c.btn.longCmd, none⟩] ∧
    c.btn.longCmd ≠ none ∧
    sub32 tk.now c.btn.pressStartTime ≥ LONG_PRESS_MS ∧
    ∀ ticks : List Tick, clockOk tk.now ticks = true →
      (∀ x ∈ ticks, x.reading = true ∧ x.now < tk.now + CONTINUOUS_INTERVAL) →
      callsOf (handleButton c tk).1 ticks = [] := by
  by_cases hch : tk.reading = c.btn.lastReading
  · by_cases hs : sub32 tk.now c.btn.lastDebounceTime > DEBOUNCE_MS
    · cases hr : tk.reading <;> cases hc : c.btn.currentState
      · rw [hb_idle c tk hch hs hr hc, continuous_btn, h0] at h1
        exact absurd h1 (by decide)
      · rw [hb_release c tk hch hs hr hc] at h1
        split_ifs at h1 <;> simp only at h1 <;> rw [h0] at h1 <;> exact absurd h1 (by decide)
      · rw [hb_press c tk hch hs hr hc] at h1
        simp only at h1
        exact absurd h1 (by decide)
      · by_cases hcond : c.btn.longPressFired = false ∧
            sub32 tk.now c.btn.pressStartTime ≥ LONG_PRESS_MS ∧ c.btn.longCmd ≠ none
        · have e : handleButton c tk =
              ({ btn := { c.btn with longPressFired := true }, lastCommandTime := tk.now },
               [⟨Site.continuous, c.btn.longCmd, none⟩]) := by
            rw [hb_hold c tk hch hs hr hc, if_pos hcond]
            exact continuous_fire _ tk.now hip rfl hcond.2.2 hq
          rw [e]
          refine ⟨rfl, hcond.2.2, hcond.2.1, ?_⟩
          intro ticks hclk hall
          exact quiet_run _ tk.now tk.now ticks hc (by rw [← hch, hr]) rfl rfl (le_refl _)
            hclk hall
        · rw [hb_hold c tk hch hs hr hc, if_neg hcond, continuous_btn, h0] at h1
          exact absurd h1 (by decide)
    · rw [hb_unstable c tk hch (by omega), h0] at h1
      exact absurd h1 (by decide)
  · rw [hb_changed c tk hch] at h1
    simp only at h1
    rw [h0] at h1
    exact absurd h1 (by decide)

/-- C8, amended, on the `volume_up` channel: the tick at 4551 ms sets
`longPressFired` and issues the first repeat. -/
theorem first_repeat_on_long_press_tick_witness :
    (handleButton (run (bootChan 12 (some "volume_up") (some "volume_up"))
      [⟨false, 2000, 0⟩, ⟨false, 2100, 0⟩, ⟨true, 3000, 0⟩, ⟨true, 3051, 0⟩, ⟨true, 4550, 0⟩])
      ⟨true, 4551, 0⟩).2 =
      [⟨Site.continuous, (run (bootChan 12 (some "volume_up") (some "volume_up"))
        [⟨false, 2000, 0⟩, ⟨false, 2100, 0⟩, ⟨true, 3000, 0⟩, ⟨true, 3051, 0⟩,
         ⟨true, 4550, 0⟩]).btn.longCmd, none⟩] :=
  (first_repeat_on_long_press_tick
    (run (bootChan 12 (some "volume_up") (some "volume_up"))
      [⟨false, 2000, 0⟩, ⟨false, 2100, 0⟩, ⟨true, 3000, 0⟩, ⟨true, 3051, 0⟩, ⟨true, 4550, 0⟩])
    ⟨true, 4551, 0⟩ (by decide) (by decide) (by decide) (by decide)).1

/-! ### Battery hysteresis -/

theorem lowBatteryStep_low (v : ℚ) (h : v < LOW_BATTERY_THRESHOLD) :
    lowBatteryStep v false = (true, true) ∧ lowBatteryStep v true = (true, false) := by
  have h2 : ¬ v ≥ LOW_BATTERY_THRESHOLD + 0.1 := by
    intro h3
    have : (0 : ℚ) < 0.1 := by norm_num
    linarith
  constructor
  · simp [lowBatteryStep, h]
  · simp only [lowBatteryStep, Bool.true_eq_false, and_false, if_false, if_neg h2]

/-- Once warned, samples that stay below the threshold send nothing more. -/
theorem warnings_below (vs : List ℚ) (h : ∀ v ∈ vs, v < LOW_BATTERY_THRESHOLD) :
    (warningsOf true vs).count true = 0 := by
  induction vs with
  | nil => rfl
  | cons v vs ih =>
    have hv := (lowBatteryStep_low v (h v (List.mem_cons_self v vs))).2
    simp only [warningsOf, hv]
    rw [List.count_cons_of_ne (by decide)]
    exact ih (fun w hw => h w (List.mem_cons_of_mem v hw))

/-- A non-increasing sample sequence that goes below the threshold sends the
warning exactly once. -/
theorem warnings_decreasing (vs : List ℚ) (hs : vs.Pairwise (fun a b => a ≥ b))
    (hx : ∃ v ∈ vs, v < LOW_BATTERY_THRESHOLD) : (warningsOf false vs).count true = 1 := by
  induction vs with
  | nil =>
    obtain ⟨v, hv, _⟩ := hx
    exact absurd hv (List.not_mem_nil v)
  | cons v vs ih =>
    rw [List.pairwise_cons] at hs
    by_cases hv : v < LOW_BATTERY_THRESHOLD
    · have e := (lowBatteryStep_low v hv).1
      simp only [warningsOf, e, List.count_cons_self]
      rw [warnings_below vs (fun w hw => lt_of_le_of_lt (hs.1 w hw) hv)]
    · have e : lowBatteryStep v false = (false, false) := by
        simp only [lowBatteryStep, hv, false_and, if_false]
        split_ifs <;> rfl
      simp only [warningsOf, e]
      rw [List.count_cons_of_ne (by decide)]
      apply ih hs.2
      obtain ⟨w, hw, hlt⟩ := hx
      rcases List.mem_cons.mp hw with rfl | hw
      · exact absurd hlt hv
      · exact ⟨w, hw, hlt⟩

/-- C9: the warned flag of `checkBattery` follows the hysteresis rule. From
false it becomes true exactly on a sample below 3.2 V; from true it becomes
false exactly on a sample of at least 3.2 V + 0.1 V; the `low_battery` command
is issued on exactly the samples where the flag goes from false to true. After
a dip to 3.15 V the flag is still true at 3.25 V and is cleared at 3.35 V, and
a non-increasing sample sequence that goes below 3.2 V issues the command
exactly once. `checkBattery` applies this rule to the converted ADC reading. -/
theorem battery_hysteresis :
    (∀ v : ℚ, ((lowBatteryStep v false).1 = true ↔ v < 3.2) ∧
      ((lowBatteryStep v true).1 = false ↔ v ≥ 3.2 + 0.1)) ∧
    (∀ (v : ℚ) (w : Bool),
      ((lowBatteryStep v w).2 = true ↔ w = false ∧ (lowBatteryStep v w).1 = true)) ∧
    (warnedAfter false [3.15] = true ∧ warnedAfter false [3.15, 3.25] = true ∧
      warnedAfter false [3.15, 3.25, 3.35] = false ∧
      warningsOf false [3.15, 3.25, 3.35] = [true, false, false]) ∧
    (∀ vs : List ℚ, vs.Pairwise (fun a b => a ≥ b) → (∃ v ∈ vs, v < 3.2) →
      (warningsOf false vs).count true = 1) ∧
    (∀ (adcValue : Nat) (w : Bool),
      checkBattery adcValue w = (adcToVoltage adcValue, lowBatteryStep (adcToVoltage adcValue) w)) := by
  refine ⟨?_, ?_, ?_, ?_, fun _ _ => rfl⟩
  · intro v
    constructor
    · by_cases h : v < 3.2
      · simp [lowBatteryStep, LOW_BATTERY_THRESHOLD, h]
      · simp only [lowBatteryStep, LOW_BATTERY_THRESHOLD, h, false_and, if_false, iff_false]
        split_ifs <;> simp
    · by_cases h : v ≥ 3.2 + 0.1
      · simp [lowBatteryStep, LOW_BATTERY_THRESHOLD, h]
      · simp [lowBatteryStep, LOW_BATTERY_THRESHOLD, h]
  · intro v w
    cases w
    · by_cases h : v < 3.2
      · simp [lowBatteryStep, LOW_BATTERY_THRESHOLD, h]
      · simp only [lowBatteryStep, LOW_BATTERY_THRESHOLD, h, false_and, if_false]
        split_ifs <;> simp
    · simp only [lowBatteryStep, Bool.true_eq_false, and_false, if_false]
      split_ifs <;> simp
  · simp only [warnedAfter, warningsOf, lowBatteryStep, LOW_BATTERY_THRESHOLD]
    norm_num
  · intro vs hs hx
    exact warnings_decreasing vs hs hx

/-- C9 on a decreasing sequence of samples crossing 3.2 V: one warning. -/
theorem battery_hysteresis_witness :
    (warningsOf false [3.4, 3.3, 3.21, 3.19, 3.0]).count true = 1 :=
  battery_hysteresis.2.2.2.1 [3.4, 3.3, 3.21, 3.19, 3.0]
    (by simp only [List.pairwise_cons, List.mem_cons, List.mem_singleton, List.not_mem_nil,
          forall_eq_or_imp, forall_eq, List.Pairwise.nil]; norm_num)
    ⟨3.19, by simp, by norm_num⟩

/-! ### Idle timeout -/

/-- C10 as stated fails at the boundary: with no peer attached and exactly
`IDLE_TIMEOUT_MS` = 300000 ms since the last activity, the tick does not trigger
the power-down; one millisecond later it does. -/
theorem idle_boundary_counterexample :
    sub32 305000 5000 = 300000 ∧ IDLE_TIMEOUT_MS = 300000 ∧
    loopIdle false 305000 5000 = false ∧ loopIdle false 305001 5000 = true := by
  decide

/-- C10, amended: on every tick of `loop`, `enterDeepSleep` is called if and
only if no peer is attached and the time elapsed since `lastActivityTime` is
strictly more than `IDLE_TIMEOUT_MS`; it is never called while a peer is
attached. -/
theorem idle_power_down (clientConnected : Bool) (ms lastActivityTime : Nat) :
    (loopIdle clientConnected ms lastActivityTime = true ↔
      clientConnected = false ∧ sub32 ms lastActivityTime > IDLE_TIMEOUT_MS) ∧
    loopIdle true ms lastActivityTime = false := by
  cases clientConnected <;> simp [loopIdle, checkIdleTimeout]

/-! ### Activity tracking -/

theorem sendCommand_lastActivityTime (io : Transport) (g : Globals) (ms : Nat)
    (cmd extraJson : Option String) :
    (sendCommand io g ms cmd extraJson).1.lastActivityTime = g.lastActivityTime := by
  cases hc : g.clientConnected with
  | false => rw [sendCommand_noClient io g ms cmd extraJson hc]
  | true =>
    cases cmd with
    | none => rw [sendCommand_null]
    | some name =>
      by_cases hl : (io.serializeJson name g.commandSeq ms extraJson).utf8ByteSize < JSON_BUFFER_SIZE
      · rw [sendCommand_fits io g ms name extraJson hc hl]
      · rw [sendCommand_overflow io g ms name extraJson hc (not_lt.mp hl)]

/-- C12: the connection state holds one peer identity. In the state reached
by any sequence of transport events: after a CONNECTED event for `clientId`
the state is connected with `currentClientId = clientId`, whatever identity was
captured before; after a DISCONNECTED event for the captured identity the state
is disconnected; a DISCONNECTED event for any other identity leaves
`clientConnected` and `currentClientId` unchanged, and so does every event that
is neither of the two, when its call returns. -/
theorem single_peer_connection (g0 : Globals) (evs : List WsEvent) (s : Globals)
    (_hs : wsRun g0 evs = some s) (ms : Nat) (clientId : Nat) (payload : Payload) :
    (∃ r, webSocketEvent s ms clientId WStype.CONNECTED payload = some r ∧
      r.1.clientConnected = true ∧ r.1.currentClientId = clientId) ∧
    (clientId = s.currentClientId →
      ∃ r, webSocketEvent s ms clientId WStype.DISCONNECTED payload = some r ∧
        r.1.clientConnected = false) ∧
    (clientId ≠ s.currentClientId →
      ∃ r, webSocketEvent s ms clientId WStype.DISCONNECTED payload = some r ∧
        r.1.clientConnected = s.clientConnected ∧ r.1.currentClientId = s.currentClientId) ∧
    (∀ type : WStype, type ≠ WStype.CONNECTED → type ≠ WStype.DISCONNECTED →
      ∀ r, webSocketEvent s ms clientId type payload = some r →
        r.1.clientConnected = s.clientConnected ∧ r.1.currentClientId = s.currentClientId) := by
  refine ⟨⟨_, rfl, rfl, rfl⟩, ?_, ?_, ?_⟩
  · intro h
    refine ⟨_, rfl, ?_⟩
    simp only [if_pos h]
  · intro h
    refine ⟨_, rfl, ?_⟩
    simp only [if_neg h, and_self]
  · intro type h1 h2 r hr
    cases type <;> first
      | exact absurd rfl h1
      | exact absurd rfl h2
      | (cases payload <;> simp only [webSocketEvent, Option.some.injEq, reduceCtorEq] at hr <;>
          subst hr <;> exact ⟨rfl, rfl⟩)

/-- C12 on a sequence of events: peer 3 connects, peer 5 connects and takes
its place, a disconnect of peer 3 changes nothing, a disconnect of peer 5
clears the connection. -/
theorem single_peer_connection_witness :
    (∃ r, webSocketEvent ⟨true, 5, 2, 2000⟩ 3000 3 WStype.DISCONNECTED Payload.parseError = some r ∧
      r.1.clientConnected = true ∧ r.1.currentClientId = 5) ∧
    (∃ r, webSocketEvent ⟨true, 5, 2, 2000⟩ 3000 5 WStype.DISCONNECTED Payload.parseError = some r ∧
      r.1.clientConnected = false) :=
  ⟨(single_peer_connection ⟨false, 0, 0, 0⟩
      [⟨1000, 3, WStype.CONNECTED, Payload.parseError⟩,
       ⟨2000, 5, WStype.CONNECTED, Payload.parseError⟩]
      ⟨true, 5, 2, 2000⟩ (by decide) 3000 3 Payload.parseError).2.2.1 (by decide),
   (single_peer_connection ⟨false, 0, 0, 0⟩
      [⟨1000, 3, WStype.CONNECTED, Payload.parseError⟩,
       ⟨2000, 5, WStype.CONNECTED, Payload.parseError⟩]
      ⟨true, 5, 2, 2000⟩ (by decide) 3000 5 Payload.parseError).2.1 (by decide)⟩

/-! ### The life of `longPressFired` -/

theorem isPressed_step (c : Chan) (tk : Tick)
    (h : c.btn.isPressed = true → c.btn.currentState = true) :
    (handleButton c tk).1.btn.isPressed = true → (handleButton c tk).1.btn.currentState = true := by
  by_cases hch : tk.reading = c.btn.lastReading
  · by_cases hs : sub32 tk.now c.btn.lastDebounceTime > DEBOUNCE_MS
    · cases hr : tk.reading <;> cases hc : c.btn.currentState
      · rw [hb_idle c tk hch hs hr hc, continuous_btn]; exact h
      · rw [hb_release c tk hch hs hr hc]
        split_ifs <;> exact fun hh => absurd hh (by simp)
      · rw [hb_press c tk hch hs hr hc]; exact fun _ => rfl
      · rw [hb_hold c tk hch hs hr hc, continuous_btn]
        split_ifs
        · exact fun _ => hc
        · exact h
    · rw [hb_unstable c tk hch (by omega)]; exact h
  · rw [hb_changed c tk hch]; exact h

theorem isPressed_run (c : Chan) (ticks : List Tick)
    (h : c.btn.isPressed = true → c.btn.currentState = true) :
    (run c ticks).btn.isPressed = true → (run c ticks).btn.currentState = true := by
  induction ticks generalizing c with
  | nil => exact h
  | cons tk ticks ih => exact ih _ (isPressed_step c tk h)

/-- What one tick does to `longPressFired`, from any state. -/
theorem lpf_step (c : Chan) (tk : Tick) :
    (c.btn.longPressFired = false → (handleButton c tk).1.btn.longPressFired = true →
      c.btn.currentState = true ∧ (handleButton c tk).1.btn.currentState = true) ∧
    (c.btn.currentState = false → (handleButton c tk).1.btn.currentState = true →
      (handleButton c tk).1.btn.longPressFired = false) ∧
    ((handleButton c tk).1.btn.currentState = false →
      (handleButton c tk).1.btn.longPressFired = c.btn.longPressFired) := by
  by_cases hch : tk.reading = c.btn.lastReading
  · by_cases hs : sub32 tk.now c.btn.lastDebounceTime > DEBOUNCE_MS
    · cases hr : tk.reading <;> cases hc : c.btn.currentState
      · rw [hb_idle c tk hch hs hr hc, continuous_btn]
        exact ⟨fun h0 h1 => absurd (h0.symm.trans h1) (by decide), fun _ h => absurd (hc.symm.trans h) (by decide),
          fun _ => rfl⟩
      · rw [hb_release c tk hch hs hr hc]
        split_ifs
        · exact ⟨fun h0 h1 => absurd (h0.symm.trans h1) (by decide),
            fun h => absurd h (by decide), fun _ => rfl⟩
        · exact ⟨fun h0 h1 => absurd (h0.symm.trans h1) (by decide),
            fun h => absurd h (by decide), fun _ => rfl⟩
      · rw [hb_press c tk hch hs hr hc]
        exact ⟨fun _ h1 => absurd h1 (by simp), fun _ _ => rfl, fun h => absurd h (by simp)⟩
      · rw [hb_hold c tk hch hs hr hc, continuous_btn]
        split_ifs
        · exact ⟨fun _ _ => ⟨rfl, hc⟩, fun h => absurd h (by decide),
            fun h => absurd (hc.symm.trans h) (by decide)⟩
        · exact ⟨fun h0 h1 => absurd (h0.symm.trans h1) (by decide),
            fun h => absurd h (by decide), fun _ => rfl⟩
    · rw [hb_unstable c tk hch (by omega)]
      exact ⟨fun h0 h1 => absurd (h0.symm.trans h1) (by decide),
        fun h0 h1 => absurd (h0.symm.trans h1) (by decide), fun _ => rfl⟩
  · rw [hb_changed c tk hch]
    exact ⟨fun h0 h1 => absurd (h0.symm.trans h1) (by decide),
      fun h0 h1 => absurd (h0.symm.trans h1) (by decide), fun _ => rfl⟩

/-- A tick that starts Released with `isPressed` false sends nothing. -/
theorem released_no_call (c : Chan) (tk : Tick) (hc : c.btn.currentState = false)
    (hip : c.btn.isPressed = false) : (handleButton c tk).2 = [] := by
  by_cases hch : tk.reading = c.btn.lastReading
  · by_cases hs : sub32 tk.now c.btn.lastDebounceTime > DEBOUNCE_MS
    · cases hr : tk.reading
      · rw [hb_idle c tk hch hs hr hc, continuous_released c _ hip]
      · rw [hb_press c tk hch hs hr hc]
    · rw [hb_unstable c tk hch (by omega)]
  · rw [hb_changed c tk hch]

/-- C13 as stated fails: on the `volume_up` channel, after a press accepted at
3051 ms, a long press fired at 4551 ms and the release accepted at 4851 ms, the
logical state is Released (`currentState` and `isPressed` false) and
`longPressFired` is still true. -/
theorem longPressFired_after_release_counterexample :
    (run (bootChan 12 (some "volume_up") (some "volume_up"))
      [⟨false, 2000, 0⟩, ⟨false, 2100, 0⟩, ⟨true, 3000, 0⟩, ⟨true, 3051, 0⟩, ⟨true, 4551, 0⟩,
       ⟨false, 4800, 0⟩, ⟨false, 4851, 0⟩]).btn.currentState = false ∧
    (run (bootChan 12 (some "volume_up") (some "volume_up"))
      [⟨false, 2000, 0⟩, ⟨false, 2100, 0⟩, ⟨true, 3000, 0⟩, ⟨true, 3051, 0⟩, ⟨true, 4551, 0⟩,
       ⟨false, 4800, 0⟩, ⟨false, 4851, 0⟩]).btn.isPressed = false ∧
    (run (bootChan 12 (some "volume_up") (some "volume_up"))
      [⟨false, 2000, 0⟩, ⟨false, 2100, 0⟩, ⟨true, 3000, 0⟩, ⟨true, 3051, 0⟩, ⟨true, 4551, 0⟩,
       ⟨false, 4800, 0⟩, ⟨false, 4851, 0⟩]).btn.longPressFired = true := by
  decide

/-- C13, amended: in every state of a channel reachable from its row of
`buttons` by `handleButton` ticks, `longPressFired` goes from false to true
only on a tick on which the logical state is Pressed before and after; a tick
that ends in the Released state (the release tick included) leaves it as it
was; the tick that accepts the next press clears it. So after the release of a
long press it stays true until the next press start. There `isPressed` is false
whenever `currentState` is, and a tick that starts Released issues no command. -/
theorem longPressFired_lifecycle (pin : Nat) (shortCmd longCmd : Option String)
    (ticks : List Tick) (tk : Tick) :
    ((run (bootChan pin shortCmd longCmd) ticks).btn.longPressFired = false →
      (handleButton (run (bootChan pin shortCmd longCmd) ticks) tk).1.btn.longPressFired = true →
      (run (bootChan pin shortCmd longCmd) ticks).btn.currentState = true ∧
      (handleButton (run (bootChan pin shortCmd longCmd) ticks) tk).1.btn.currentState = true) ∧
    ((handleButton (run (bootChan pin shortCmd longCmd) ticks) tk).1.btn.currentState = false →
      (handleButton (run (bootChan pin shortCmd longCmd) ticks) tk).1.btn.longPressFired =
        (run (bootChan pin shortCmd longCmd) ticks).btn.longPressFired) ∧
    ((run (bootChan pin shortCmd longCmd) ticks).btn.currentState = false →
      (handleButton (run (bootChan pin shortCmd longCmd) ticks) tk).1.btn.currentState = true →
      (handleButton (run (bootChan pin shortCmd longCmd) ticks) tk).1.btn.longPressFired = false) ∧
    ((run (bootChan pin shortCmd longCmd) ticks).btn.currentState = false →
      (run (bootChan pin shortCmd longCmd) ticks).btn.isPressed = false ∧
      (handleButton (run (bootChan pin shortCmd longCmd) ticks) tk).2 = []) := by
  obtain ⟨h1, h2, h3⟩ := lpf_step (run (bootChan pin shortCmd longCmd) ticks) tk
  refine ⟨h1, h3, h2, ?_⟩
  intro hc
  have hinv := isPressed_run (bootChan pin shortCmd longCmd) ticks
    (fun h => absurd h (by simp [bootChan, initButton]))
  have hip : (run (bootChan pin shortCmd longCmd) ticks).btn.isPressed = false := by
    cases hi : (run (bootChan pin shortCmd longCmd) ticks).btn.isPressed with
    | false => rfl
    | true => exact absurd ((hinv hi).symm.trans hc) (by decide)
  exact ⟨hip, released_no_call _ tk hc hip⟩

/-- C13, amended, on the `volume_up` channel: the tick at 4851 ms accepts the
release of a long press and leaves `longPressFired` as it was. -/
theorem longPressFired_lifecycle_witness :
    (handleButton (run (bootChan 12 (some "volume_up") (some "volume_up"))
      [⟨false, 2000, 0⟩, ⟨false, 2100, 0⟩, ⟨true, 3000, 0⟩, ⟨true, 3051, 0⟩, ⟨true, 4551, 0⟩,
       ⟨false, 4800, 0⟩]) ⟨false, 4851, 0⟩).1.btn.longPressFired =
    (run (bootChan 12 (some "volume_up") (some "volume_up"))
      [⟨false, 2000, 0⟩, ⟨false, 2100, 0⟩, ⟨true, 3000, 0⟩, ⟨true, 3051, 0⟩, ⟨true, 4551, 0⟩,
       ⟨false, 4800, 0⟩]).btn.longPressFired :=
  (longPressFired_lifecycle 12 (some "volume_up") (some "volume_up")
    [⟨false, 2000, 0⟩, ⟨false, 2100, 0⟩, ⟨true, 3000, 0⟩, ⟨true, 3051, 0⟩, ⟨true, 4551, 0⟩,
     ⟨false, 4800, 0⟩] ⟨false, 4851, 0⟩).2.1 (by decide)

/-! ### A channel that is never pressed -/

/-- One tick with the raw level inactive, at `LONG_PRESS_MS - DEBOUNCE_MS - 1`
(1449 ms) of uptime or later, on a channel that has not been pressed since
boot: nothing is sent and the fields such a tick never touches stay as they
are. While the channel is still in its boot state (`currentState` true) the
debounce timer is either not yet restarted or was restarted at 1449 ms or
later, so the release branch can only run from 1500 ms on. -/
theorem inactive_step (c : Chan) (tk : Tick) (hr : tk.reading = false)
    (h1 : LONG_PRESS_MS - DEBOUNCE_MS - 1 ≤ tk.now) (h2 : tk.now < 4294967296)
    (hldt : c.btn.lastDebounceTime ≤ tk.now)
    (hip : c.btn.isPressed = false) (hpst : c.btn.pressStartTime = 0)
    (hlct : c.lastCommandTime = 0)
    (hboot : c.btn.currentState = true →
      c.btn.lastReading = true ∨ LONG_PRESS_MS - DEBOUNCE_MS - 1 ≤ c.btn.lastDebounceTime) :
    (handleButton c tk).2 = [] ∧ (handleButton c tk).1.btn.isPressed = false ∧
      (handleButton c tk).1.btn.pressStartTime = 0 ∧
      (handleButton c tk).1.lastCommandTime = 0 ∧
      (handleButton c tk).1.btn.lastDebounceTime ≤ tk.now ∧
      ((handleButton c tk).1.btn.currentState = true →
        (handleButton c tk).1.btn.lastReading = true ∨
        LONG_PRESS_MS - DEBOUNCE_MS - 1 ≤ (handleButton c tk).1.btn.lastDebounceTime) := by
  by_cases hch : tk.reading = c.btn.lastReading
  · by_cases hs : sub32 tk.now c.btn.lastDebounceTime > DEBOUNCE_MS
    · cases hc : c.btn.currentState
      · rw [hb_idle c tk hch hs hr hc, continuous_released c _ hip]
        exact ⟨rfl, hip, hpst, hlct, hldt, fun h => absurd (hc.symm.trans h) (by decide)⟩
      · have hl := stable_le hldt h2 hs
        have hlate : LONG_PRESS_MS ≤ tk.now := by
          rcases hboot hc with hb | hb
          · rw [← hch, hr] at hb
            exact absurd hb (by decide)
          · simp only [LONG_PRESS_MS, DEBOUNCE_MS] at hb ⊢
            omega
        have hno : ¬ (c.btn.longPressFired = false ∧
            sub32 tk.now c.btn.pressStartTime < LONG_PRESS_MS ∧
            sub32 tk.now c.lastCommandTime ≥ COMMAND_MIN_INTERVAL) := by
          intro hh
          have := hh.2.1
          rw [hpst, sub32_of_le (Nat.zero_le _) h2] at this
          omega
        rw [hb_release c tk hch hs hr hc, if_neg hno]
        exact ⟨rfl, rfl, hpst, hlct, hldt, fun h => absurd h (by simp)⟩
    · rw [hb_unstable c tk hch (by omega)]
      exact ⟨rfl, hip, hpst, hlct, hldt, hboot⟩
  · rw [hb_changed c tk hch]
    exact ⟨rfl, hip, hpst, hlct, le_refl _, fun _ => Or.inr h1⟩

theorem inactive_run (c : Chan) (t0 : Nat) (ticks : List Tick)
    (hclk : clockOk t0 ticks = true) (ht0 : LONG_PRESS_MS - DEBOUNCE_MS - 1 ≤ t0)
    (hr : ∀ x ∈ ticks, x.reading = false)
    (hldt : c.btn.lastDebounceTime ≤ t0)
    (hip : c.btn.isPressed = false) (hpst : c.btn.pressStartTime = 0)
    (hlct : c.lastCommandTime = 0)
    (hboot : c.btn.currentState = true →
      c.btn.lastReading = true ∨ LONG_PRESS_MS - DEBOUNCE_MS - 1 ≤ c.btn.lastDebounceTime) :
    callsOf c ticks = [] ∧ (run c ticks).lastCommandTime = 0 := by
  induction ticks generalizing c t0 with
  | nil => exact ⟨rfl, hlct⟩
  | cons tk ticks ih =>
    simp only [clockOk, Bool.and_eq_true, decide_eq_true_eq] at hclk
    obtain ⟨e1, e2, e3, e4, e5, e6⟩ := inactive_step c tk (hr tk (List.mem_cons_self tk ticks))
      (le_trans ht0 hclk.1.1) hclk.1.2 (le_trans hldt hclk.1.1) hip hpst hlct hboot
    have := ih (handleButton c tk).1 tk.now hclk.2 (le_trans ht0 hclk.1.1)
      (fun x hx => hr x (List.mem_cons_of_mem tk hx)) e5 e2 e3 e4 e6
    simp only [callsOf, run, e1, List.map_nil, List.nil_append]
    exact this

/-- C14 as stated fails for a clock that starts early: the `next` channel from
its row of `buttons`, raw level inactive on every tick, `millis()` 0 and then
100. The row starts with `currentState = HIGH`, so the second tick takes the
release branch, calls `sendCommand("next")`, and sets `lastCommandTime` and
`lastActivityTime` to 100. The same happens for a first tick as late as
1448 ms (release accepted at 1499 ms). -/
theorem never_pressed_channel_sends_at_boot :
    callsOf (bootChan 2 (some "next") none) [⟨false, 0, 0⟩, ⟨false, 100, 0⟩] =
      [(100, ⟨Site.shortPress, some "next", none⟩)] ∧
    (run (bootChan 2 (some "next") none) [⟨false, 0, 0⟩, ⟨false, 100, 0⟩]).lastCommandTime = 100 ∧
    (handleButtonSys okTransport ⟨false, 0, 0, 0⟩
      (run (bootChan 2 (some "next") none) [⟨false, 0, 0⟩]) ⟨false, 100, 0⟩ 100).1.lastActivityTime
      = 100 ∧
    clockOk 0 [⟨false, 0, 0⟩, ⟨false, 100, 0⟩] = true ∧
    callsOf (bootChan 2 (some "next") none) [⟨false, 1448, 0⟩, ⟨false, 1499, 0⟩] =
      [(1499, ⟨Site.shortPress, some "next", none⟩)] := by
  decide

/-- C14, amended: starting from the initial `buttons` table, for every
non-decreasing clock sequence whose first tick is at
`LONG_PRESS_MS - DEBOUNCE_MS - 1` = 1449 ms of uptime or later (`loop()` starts
after the delays of `setup()`, which add up to more) and every channel whose
raw level is inactive on every tick, `handleButton` never issues a command and
never updates `lastCommandTime`, and every tick leaves the globals,
`lastActivityTime` among them, as they were. -/
theorem never_pressed_silent_late_clock (pin : Nat) (shortCmd longCmd : Option String)
    (pre : List Tick) (tk : Tick)
    (hclk : clockOk (LONG_PRESS_MS - DEBOUNCE_MS - 1) (pre ++ [tk]) = true)
    (hr : ∀ x ∈ pre ++ [tk], x.reading = false) (io : Transport) (g : Globals) (ms : Nat) :
    callsOf (bootChan pin shortCmd longCmd) (pre ++ [tk]) = [] ∧
    (run (bootChan pin shortCmd longCmd) (pre ++ [tk])).lastCommandTime = 0 ∧
    (handleButtonSys io g (run (bootChan pin shortCmd longCmd) pre) tk ms).1 = g := by
  have h := inactive_run (bootChan pin shortCmd longCmd) (LONG_PRESS_MS - DEBOUNCE_MS - 1)
    (pre ++ [tk]) hclk (le_refl _) hr (Nat.zero_le _) rfl rfl rfl (fun _ => Or.inl rfl)
  refine ⟨h.1, h.2, ?_⟩
  have hc := h.1
  rw [callsOf_append] at hc
  have h2 := (List.append_eq_nil.mp hc).2
  simp only [callsOf, List.append_nil, List.map_eq_nil_iff] at h2
  simp only [handleButtonSys, h2, sendAll]

/-- C14, amended, on the `next` channel with a first tick at 1449 ms: the
release branch runs at 1500 ms and sends nothing, nor does any later tick. -/
theorem never_pressed_silent_late_clock_witness :
    callsOf (bootChan 2 (some "next") none)
      ([⟨false, 1449, 0⟩, ⟨false, 1500, 0⟩] ++ [⟨false, 2200, 0⟩]) = [] :=
  (never_pressed_silent_late_clock 2 (some "next") none
    [⟨false, 1449, 0⟩, ⟨false, 1500, 0⟩] ⟨false, 2200, 0⟩ (by decide) (by decide)
    okTransport ⟨false, 0, 0, 0⟩ 2200).1

end AudioRemote
